import Mathlib

/-!
Shallow embedding of the `pycvcam_viz` repository
(`src/pycvcam_viz/visualizers/zernike_distortion_visualizer.py`).

Conventions of the embedding:
* numpy float arrays are modelled as lists of rationals (`List ℚ`), so all
  chart geometry is exact rational arithmetic;
* the external `ZernikeDistortion` model (owned by the `pycvcam` library) is
  modelled as a record of its order `Nzer` and its two coefficient vectors;
* the external `read_transform` is modelled as an oracle function
  `String → Except String ZernikeDistortion` passed to the event handlers;
* Python's dynamic typing, needed for the `isinstance` validation in
  `plot_bar_chart`, is modelled by the small universe `PyObj`;
* the Qt widget state touched by the handlers (the `file_data` dict, the
  `QListWidget` items with their selection flags, the figure selector text,
  the checkbox, the canvas, the status bar, the warning dialogs) is modelled
  by the record `UIState`; mutation becomes state passing.
-/

/-- Model of `pycvcam.ZernikeDistortion`: order `Nzer` and the two
coefficient vectors `parameters_x` / `parameters_y`. The library keeps
`len(parameters_x) = len(parameters_y) = (Nzer+1)(Nzer+2)/2`; the embedding
states that invariant separately as `ZernikeDistortion.WF`. -/
structure ZernikeDistortion where
  Nzer : ℕ
  parameters_x : List ℚ
  parameters_y : List ℚ
deriving DecidableEq

instance : Inhabited ZernikeDistortion := ⟨⟨0, [], []⟩⟩

/-- Library invariant of `pycvcam.ZernikeDistortion` (not re-checked by this
repository): each coefficient vector has exactly `(Nzer+1)(Nzer+2)/2`
entries. -/
def ZernikeDistortion.WF (d : ZernikeDistortion) : Prop :=
  d.parameters_x.length = (d.Nzer + 1) * (d.Nzer + 2) / 2 ∧
  d.parameters_y.length = (d.Nzer + 1) * (d.Nzer + 2) / 2

instance (d : ZernikeDistortion) : Decidable d.WF := by
  unfold ZernikeDistortion.WF; infer_instance

/-- Record of one `axes.bar(x + x_shift + i * x_width, parameters, width=...,
label=..., color=...)` call: the bar centers, the bar heights, the common
width, the legend label and the colormap index `i / len(distortions)`. -/
structure BarCall where
  centers : List ℚ
  heights : List ℚ
  width : ℚ
  label : String
  colorIdx : ℚ
deriving DecidableEq

instance : Inhabited BarCall := ⟨⟨[], [], 0, "", 0⟩⟩

/-- Observable state of the matplotlib axes after the calls made by this
repository (`bar`, `set_xticks`, `set_xticklabels`, `set_title`, `legend`,
`grid`, `clear`). -/
structure AxesState where
  bars : List BarCall
  xticks : List ℚ
  xticklabels : List String
  title : String
  legendOn : Bool
  gridOn : Bool
deriving DecidableEq

/-- State of freshly cleared axes (`axes.clear()`). -/
def AxesState.empty : AxesState :=
  ⟨[], [], [], "", false, false⟩

instance : Inhabited AxesState := ⟨AxesState.empty⟩

/-- Model of `MplCanvas`: a figure with one axes. -/
structure MplCanvas where
  axes : AxesState
deriving DecidableEq

instance : Inhabited MplCanvas := ⟨⟨AxesState.empty⟩⟩

/-- Effect of `canvas.axes.clear()` on a canvas. -/
def MplCanvas.clearAxes (c : MplCanvas) : MplCanvas :=
  { c with axes := AxesState.empty }

/-- Small universe of Python runtime values, enough to express the
`isinstance` checks of `plot_bar_chart`. -/
inductive PyObj where
  | canvas (c : MplCanvas)
  | distortion (d : ZernikeDistortion)
  | str (s : String)
  | list (elems : List PyObj)
  | other

instance : Inhabited PyObj := ⟨PyObj.other⟩

/-- Test `isinstance(v, MplCanvas)`. -/
def isMplCanvas : PyObj → Bool
  | PyObj.canvas _ => true
  | _ => false

/-- Test `isinstance(v, ZernikeDistortion)`. -/
def isZernikeDistortion : PyObj → Bool
  | PyObj.distortion _ => true
  | _ => false

/-- Test `isinstance(v, str)`. -/
def isStr : PyObj → Bool
  | PyObj.str _ => true
  | _ => false

/-- Underlying element list of a Python list value, `none` otherwise. -/
def pyListElems : PyObj → Option (List PyObj)
  | PyObj.list xs => some xs
  | _ => none

/-- Projection used after the `isinstance(d, ZernikeDistortion)` check has
passed; the default is never reached on checked inputs. -/
def toDistortion : PyObj → ZernikeDistortion
  | PyObj.distortion d => d
  | _ => default

/-- Projection used after the `isinstance(l, str)` check has passed. -/
def toStr : PyObj → String
  | PyObj.str s => s
  | _ => ""

/-- Line 62: `Nzer = max(distortion.Nzer for distortion in distortions)`;
the list is non-empty at every call site, so folding `max` from `0` agrees
with Python's `max`. -/
def maxNzer (distortions : List ZernikeDistortion) : ℕ :=
  (distortions.map (fun d => d.Nzer)).foldl max 0

/-- The f-string `"C{mode}({n}, {m})"` of line 65. -/
def zernikeLabel (mode : String) (n : ℕ) (m : ℤ) : String :=
  "C" ++ mode ++ "(" ++ toString n ++ ", " ++ toString m ++ ")"

/-- Inner generator of line 65 for one order `n`:
`[m for m in range(-n, n+1) if (n+m) % 2 == 0]`. Python's `range(-n, n+1)`
is modelled as `range (2n+1)` shifted by `-n`; Python's `%` on ints and
`Int.emod` agree (both return `0` or `1` here). -/
def zernikeMs (n : ℕ) : List ℤ :=
  ((List.range (2 * n + 1)).map (fun k : ℕ => (k : ℤ) - (n : ℤ))).filter
    (fun m => ((n : ℤ) + m) % 2 == 0)

/-- Line 65: the tick-label comprehension
`[f"C{mode}({n}, {m})" for n in range(Nzer+1) for m in range(-n, n+1) if (n+m) % 2 == 0]`. -/
def zernikeTicklabels (mode : String) (Nzer : ℕ) : List String :=
  (List.range (Nzer + 1)).flatMap (fun n =>
    (zernikeMs n).map (fun m => zernikeLabel mode n m))

/-- Line 73: `numpy.concatenate([parameters, numpy.zeros(L - len(parameters))])`.
Modelled totally with truncated subtraction; faithful whenever
`parameters.length ≤ L`, which the `pycvcam` invariant `ZernikeDistortion.WF`
guarantees at every call (`L` is the bucket count for the maximal order). -/
def zernikePad (parameters : List ℚ) (L : ℕ) : List ℚ :=
  parameters ++ List.replicate (L - parameters.length) 0

/-- Body of `plot_bar_chart` after validation (lines 59-84): clear the axes,
compute the tick labels for the maximal order, and emit one `axes.bar` call
per distortion, then set ticks, tick labels, title, legend and grid. -/
def plot_bar_chart_core (c : MplCanvas) (distortions : List ZernikeDistortion)
    (labels : List String) (mode : String) (absolute : Bool) : MplCanvas :=
  let Nzer := maxNzer distortions
  let ticklabels := zernikeTicklabels mode Nzer
  let L := ticklabels.length
  let x : List ℚ := (List.range L).map (fun j : ℕ => (j : ℚ))
  let x_width : ℚ := 0.8 / (distortions.length : ℚ)
  let x_shift : ℚ := -0.4 + x_width / 2
  let bars := (List.enum distortions).map (fun p =>
    let parameters := if mode = "x" then p.2.parameters_x else p.2.parameters_y
    let padded := zernikePad parameters L
    let hts := if absolute then padded.map (fun v => |v|) else padded
    { centers := x.map (fun xv => xv + x_shift + (p.1 : ℚ) * x_width)
      heights := hts
      width := x_width
      label := labels.getD p.1 ""
      colorIdx := (p.1 : ℚ) / (distortions.length : ℚ) : BarCall })
  { c with axes :=
    { bars := bars
      xticks := x
      xticklabels := ticklabels
      title := "Zernike Coefficients [" ++ mode ++ "-axis]"
      legendOn := true
      gridOn := true } }

/-- Lines 34-84: `plot_bar_chart` with its validation prologue. A raised
`ValueError` becomes `Except.error (message, mpl_canvas)`; the second
component records the state of the `mpl_canvas` argument at raise time
(every raise precedes `axes.clear()`, so it is always the unmodified
argument). Error messages keep the source wording minus the quote marks. -/
def plot_bar_chart (mpl_canvas distortions labels : PyObj) (mode : String)
    (absolute : Bool) : Except (String × PyObj) MplCanvas :=
  match mpl_canvas with
  | PyObj.canvas c =>
    match distortions with
    | PyObj.list ds =>
      if ds.length = 0 then Except.error ("Invalid distortions list", mpl_canvas)
      else if ¬ ds.all isZernikeDistortion then
        Except.error ("Invalid distortion object", mpl_canvas)
      else
        match labels with
        | PyObj.list ls =>
          if ls.length = 0 then Except.error ("Invalid labels list", mpl_canvas)
          else if ¬ ls.all isStr then Except.error ("Invalid label object", mpl_canvas)
          else if ¬ ls.length = ds.length then
            Except.error ("Labels and distortions must have the same length", mpl_canvas)
          else if ¬ (mode = "x" ∨ mode = "y") then
            Except.error ("Invalid mode, must be x or y", mpl_canvas)
          else Except.ok (plot_bar_chart_core c (ds.map toDistortion) (ls.map toStr) mode absolute)
        | _ => Except.error ("Invalid labels list", mpl_canvas)
    | _ => Except.error ("Invalid distortions list", mpl_canvas)
  | _ => Except.error ("Invalid MplCanvas object", mpl_canvas)

/-- Lines 89-97: `truncate_filename` with its default `max_len=30`;
`os.path.basename` is modelled for posix paths (component after the last
slash). -/
def truncate_filename (file_path : String) : String :=
  let max_len := 30
  let name := (file_path.splitOn "/").getLastD ""
  if name.length ≤ max_len then name
  else
    let part_len := (max_len - 3) / 2
    name.take part_len ++ "..." ++ name.takeRight part_len

/-- One row of the `QListWidget`: its text and its selection flag. -/
structure ListItem where
  text : String
  selected : Bool
deriving DecidableEq

instance : Inhabited ListItem := ⟨⟨"", false⟩⟩

/-- Observable state of the application window. `file_data` is the
insertion-ordered dict path ↦ distortion; `file_list` the list-widget rows;
`figure_text` the combo-box current text; `abs_checked` the checkbox;
`current` the list widget's current item text; `status` the status bar;
`warnings` the `QMessageBox.warning` texts shown so far; `readCalls` the
paths passed to `read_transform` so far (instrumentation for the model). -/
structure UIState where
  file_data : List (String × ZernikeDistortion)
  file_list : List ListItem
  figure_text : String
  abs_checked : Bool
  canvas : MplCanvas
  current : Option String
  status : String
  warnings : List String
  readCalls : List String
deriving DecidableEq

/-- Initial state built by `ZernikeDistortionVisualizerUI.__init__`. -/
def UIState.init : UIState :=
  { file_data := []
    file_list := []
    figure_text := "Figure 1 : parameters (X)"
    abs_checked := false
    canvas := ⟨AxesState.empty⟩
    current := none
    status := ""
    warnings := []
    readCalls := [] }

instance : Inhabited UIState := ⟨UIState.init⟩

/-- Membership test `file_path in self.file_data` on the dict. -/
def dictContains (fd : List (String × ZernikeDistortion)) (k : String) : Bool :=
  fd.any (fun e => e.1 == k)

/-- Python `del fd[k]` on the insertion-ordered dict (keys are unique in
every reachable state, so removing the first binding is `del`). -/
def dictErase (fd : List (String × ZernikeDistortion)) (k : String) :
    List (String × ZernikeDistortion) :=
  match fd with
  | [] => []
  | e :: rest => if e.1 == k then rest else e :: dictErase rest k

/-- Keys of the `file_data` dict, in insertion order. -/
def fdKeys (ui : UIState) : List String :=
  ui.file_data.map (fun e => e.1)

/-- Texts of the file-list items, in widget order. -/
def listTexts (ui : UIState) : List String :=
  ui.file_list.map (fun it => it.text)

/-- The `self.file_list.selectedItems()` snapshot, in widget order. -/
def selectedItems (ui : UIState) : List ListItem :=
  ui.file_list.filter (fun it => it.selected)

/-- Loop of `update_plot` lines 315-323: for each selected item look its
text up in `file_data` and, when found, pair the distortion with the
truncated filename label. -/
def plotData (ui : UIState) : List (ZernikeDistortion × String) :=
  (selectedItems ui).filterMap (fun it =>
    (List.lookup it.text ui.file_data).map (fun d => (d, truncate_filename it.text)))

/-- Call `plot_bar_chart` from `update_plot` (lines 330/332): on success the
returned canvas is stored, on an exception the canvas attribute keeps the
canvas object passed in. The call site always passes valid inputs, so the
error branch is unreachable there. -/
def runPlot (c : MplCanvas) (dl : List (ZernikeDistortion × String)) (mode : String)
    (absolute : Bool) : MplCanvas :=
  match plot_bar_chart (PyObj.canvas c)
      (PyObj.list (dl.map (fun p => PyObj.distortion p.1)))
      (PyObj.list (dl.map (fun p => PyObj.str p.2))) mode absolute with
  | Except.ok c2 => c2
  | Except.error _ => c

/-- Python's `str.startswith`, modelled on the character lists. -/
def pyStartsWith (s p : String) : Bool :=
  p.data.isPrefixOf s.data

/-- Canvas produced by `update_plot` (lines 304-332): clear the axes; if no
item is selected or no selected item has data, stop; otherwise dispatch on
the figure selector text (`startswith("Figure 1")` / `startswith("Figure 2")`,
anything else leaves the cleared axes). -/
def update_plot_canvas (ui : UIState) : MplCanvas :=
  let c1 := MplCanvas.clearAxes ui.canvas
  if (selectedItems ui).isEmpty then c1
  else
    let dl := plotData ui
    if dl.isEmpty then c1
    else if pyStartsWith ui.figure_text "Figure 1" then runPlot c1 dl "x" ui.abs_checked
    else if pyStartsWith ui.figure_text "Figure 2" then runPlot c1 dl "y" ui.abs_checked
    else c1

/-- `update_plot` only mutates the canvas. -/
def update_plot (ui : UIState) : UIState :=
  { ui with canvas := update_plot_canvas ui }

/-- Warning text of the `QMessageBox.warning` raised on a read failure
(`f"Unable to read {file_path}:\n{e}"`). -/
def readWarning (p e : String) : String :=
  "Unable to read " ++ p ++ ":\n" ++ e

/-- Body of the first `dropEvent` loop (lines 167-181) for one url: skip
empty paths and already-loaded paths; otherwise call `read_transform` and on
success extend `file_data` and the list widget and bump `loaded_count`, on
failure show a warning. The accumulator carries the state and
`loaded_count`. -/
def dropStep (read : String → Except String ZernikeDistortion)
    (acc : UIState × ℕ) (path : String) : UIState × ℕ :=
  if path = "" ∨ dictContains acc.1.file_data path then acc
  else
    match read path with
    | Except.ok d =>
        ({ acc.1 with
            file_data := acc.1.file_data ++ [(path, d)]
            file_list := acc.1.file_list ++ [{ text := path, selected := false }]
            readCalls := acc.1.readCalls ++ [path] }, acc.2 + 1)
    | Except.error e =>
        ({ acc.1 with
            warnings := acc.1.warnings ++ [readWarning path e]
            readCalls := acc.1.readCalls ++ [path] }, acc.2)

/-- `findItems(path, MatchExactly)` followed by `setSelected(True)` on every
match. -/
def selectMatching (path : String) (l : List ListItem) : List ListItem :=
  l.map (fun it => if it.text == path then { it with selected := true } else it)

/-- Body of the second `dropEvent` loop (lines 184-190) for one url. -/
def dropSelectStep (ui : UIState) (path : String) : UIState :=
  if path = "" then ui
  else { ui with file_list := selectMatching path ui.file_list }

/-- Lines 156-192: `DropWidget.dropEvent`, given the local-file paths of the
dropped urls (an url with no local file yields `""`). Ignores an empty url
list; otherwise runs the load loop, then the select loop, then writes the
status message. -/
def dropEvent (read : String → Except String ZernikeDistortion) (ui : UIState)
    (urls : List String) : UIState :=
  if urls.isEmpty then ui
  else
    let r := urls.foldl (dropStep read) (ui, 0)
    let ui2 := urls.foldl dropSelectStep r.1
    { ui2 with status := toString r.2 ++ " file(s) loaded" }

/-- `setCurrentItem` on the first item with the given text: Qt's default
`ClearAndSelect` command in extended-selection mode selects that item and
deselects the others, and makes it current. -/
def clearAndSelectFirst (path : String) (l : List ListItem) : List ListItem :=
  match l with
  | [] => []
  | it :: rest =>
      if it.text == path then
        { it with selected := true } :: rest.map (fun j => { j with selected := false })
      else { it with selected := false } :: clearAndSelectFirst path rest

/-- Lines 283-287: the skip branch of `open_files` for an already-loaded
path: focus its list item when present. -/
def setCurrentItem (ui : UIState) (path : String) : UIState :=
  { ui with current := some path, file_list := clearAndSelectFirst path ui.file_list }

/-- Body of the first `open_files` loop (lines 282-294) for one path. -/
def openStep (read : String → Except String ZernikeDistortion)
    (ui : UIState) (p : String) : UIState :=
  if dictContains ui.file_data p then
    if ui.file_list.any (fun it => it.text == p) then setCurrentItem ui p else ui
  else
    match read p with
    | Except.ok d =>
        { ui with
            file_data := ui.file_data ++ [(p, d)]
            file_list := ui.file_list ++ [{ text := p, selected := false }]
            readCalls := ui.readCalls ++ [p] }
    | Except.error e =>
        { ui with
            warnings := ui.warnings ++ [readWarning p e]
            readCalls := ui.readCalls ++ [p] }

/-- `items[0].setSelected(True)` on the first item with the given text. -/
def selectFirst (path : String) (l : List ListItem) : List ListItem :=
  match l with
  | [] => []
  | it :: rest =>
      if it.text == path then { it with selected := true } :: rest
      else it :: selectFirst path rest

/-- Body of the second `open_files` loop (lines 296-299) for one path. -/
def openSelectStep (ui : UIState) (p : String) : UIState :=
  if ui.file_list.any (fun it => it.text == p) then
    { ui with file_list := selectFirst p ui.file_list }
  else ui

/-- Lines 274-301: `ZernikeDistortionVisualizerUI.open_files`, given whether
the dialog was accepted and the selected paths. -/
def open_files (read : String → Except String ZernikeDistortion) (ui : UIState)
    (accepted : Bool) (paths : List String) : UIState :=
  if accepted then
    let ui1 := paths.foldl (openStep read) ui
    let ui2 := paths.foldl openSelectStep ui1
    update_plot ui2
  else ui

/-- One step of the deletion loop (lines 267-271) on the dict: `del` the key
when present. -/
def removeStep (fd : List (String × ZernikeDistortion)) (it : ListItem) :
    List (String × ZernikeDistortion) :=
  if dictContains fd it.text then dictErase fd it.text else fd

/-- Lines 265-272: `remove_selected_files`: snapshot the selected items,
delete each from the dict and from the widget, then `update_plot`. Removing
every item of the snapshot from the widget is filtering out the selected
rows. -/
def remove_selected_files (ui : UIState) : UIState :=
  let sel := ui.file_list.filter (fun it => it.selected)
  let ui1 := { ui with
    file_data := sel.foldl removeStep ui.file_data
    file_list := ui.file_list.filter (fun it => ! it.selected) }
  update_plot ui1

/-! ### The tick-label grid (claim C1) -/

/-- The claim's enumeration of the grid: pairs `(n, m)` with `0 ≤ n ≤ Nzer`,
`-n ≤ m ≤ n` and `n + m` even, in order of increasing `n` and, within each
`n`, increasing `m`. -/
def specZernikePairs (Nzer : ℕ) : List (ℕ × ℤ) :=
  (List.range (Nzer + 1)).flatMap (fun n => (zernikeMs n).map (fun m => (n, m)))

lemma mem_zernikeMs (n : ℕ) (m : ℤ) :
    m ∈ zernikeMs n ↔ -(n : ℤ) ≤ m ∧ m ≤ (n : ℤ) ∧ ((n : ℤ) + m) % 2 = 0 := by
  unfold zernikeMs
  simp only [List.mem_filter, List.mem_map, List.mem_range, beq_iff_eq]
  constructor
  · rintro ⟨⟨k, hk, rfl⟩, h2⟩
    exact ⟨by omega, by omega, h2⟩
  · rintro ⟨h1, h2, h3⟩
    exact ⟨⟨(m + n).toNat, by omega, by omega⟩, h3⟩

lemma pairwise_zernikeMs (n : ℕ) : (zernikeMs n).Pairwise (fun a b => a < b) := by
  unfold zernikeMs
  refine List.Pairwise.filter _ ?_
  rw [List.pairwise_map]
  refine (List.pairwise_lt_range (2 * n + 1)).imp ?_
  intro a b h
  dsimp only
  omega

lemma length_filter_even_range (n : ℕ) :
    ((List.range (2 * n + 1)).filter (fun k => k % 2 == 0)).length = n + 1 := by
  induction n with
  | zero => rfl
  | succ n ih =>
      have h : 2 * (n + 1) + 1 = (2 * n + 1 + 1) + 1 := by ring
      rw [h, List.range_succ, List.range_succ, List.filter_append, List.filter_append]
      have h1 : ((2 * n + 1) % 2 == 0) = false := by
        have hm : (2 * n + 1) % 2 = 1 := by omega
        simp [hm]
      have h2 : ((2 * n + 1 + 1) % 2 == 0) = true := by
        have hm : (2 * n + 1 + 1) % 2 = 0 := by omega
        simp [hm]
      simp [List.filter_cons, h1, h2, List.length_append, ih]

lemma length_zernikeMs (n : ℕ) : (zernikeMs n).length = n + 1 := by
  unfold zernikeMs
  rw [List.filter_map, List.length_map]
  have hcong : ∀ k ∈ List.range (2 * n + 1),
      ((fun m => ((n : ℤ) + m) % 2 == 0) ∘ fun k : ℕ => (k : ℤ) - (n : ℤ)) k = (k % 2 == 0) := by
    intro k _
    simp only [Function.comp]
    have h : (n : ℤ) + ((k : ℤ) - n) = (k : ℤ) := by ring
    rw [h]
    by_cases hpar : k % 2 = 0
    · have hz : (k : ℤ) % 2 = 0 := by omega
      simp [hz, hpar]
    · have h1 : (k : ℤ) % 2 = 1 := by omega
      have h2 : k % 2 = 1 := by omega
      simp [h1, h2]
  rw [List.filter_congr hcong]
  exact length_filter_even_range n

lemma zernikeTicklabels_eq_map (mode : String) (Nzer : ℕ) :
    zernikeTicklabels mode Nzer =
      (specZernikePairs Nzer).map (fun p => zernikeLabel mode p.1 p.2) := by
  unfold zernikeTicklabels specZernikePairs
  rw [List.map_flatMap]
  simp only [List.map_map]
  rfl

lemma mem_specZernikePairs (Nzer n : ℕ) (m : ℤ) :
    (n, m) ∈ specZernikePairs Nzer ↔
      n ≤ Nzer ∧ -(n : ℤ) ≤ m ∧ m ≤ (n : ℤ) ∧ ((n : ℤ) + m) % 2 = 0 := by
  unfold specZernikePairs
  simp only [List.mem_flatMap, List.mem_map, List.mem_range, Prod.mk.injEq]
  constructor
  · rintro ⟨a, ha, b, hb, rfl, rfl⟩
    have h := (mem_zernikeMs a b).1 hb
    exact ⟨by omega, h.1, h.2.1, h.2.2⟩
  · rintro ⟨h1, h2, h3, h4⟩
    exact ⟨n, by omega, m, (mem_zernikeMs n m).2 ⟨h2, h3, h4⟩, rfl, rfl⟩

lemma pairwise_specZernikePairs (Nzer : ℕ) :
    (specZernikePairs Nzer).Pairwise
      (fun p q => p.1 < q.1 ∨ (p.1 = q.1 ∧ p.2 < q.2)) := by
  unfold specZernikePairs
  rw [List.pairwise_flatMap]
  constructor
  · intro n _
    rw [List.pairwise_map]
    exact (pairwise_zernikeMs n).imp (fun h => Or.inr ⟨rfl, h⟩)
  · refine (List.pairwise_lt_range (Nzer + 1)).imp ?_
    intro a b hab x hx y hy
    simp only [List.mem_map] at hx hy
    obtain ⟨mx, _, rfl⟩ := hx
    obtain ⟨my, _, rfl⟩ := hy
    exact Or.inl hab

lemma two_mul_sum_map_add_one_range (N : ℕ) :
    2 * ((List.range N).map (fun n => n + 1)).sum = N * (N + 1) := by
  induction N with
  | zero => rfl
  | succ N ih =>
      rw [List.range_succ, List.map_append, List.sum_append]
      simp only [List.map_cons, List.map_nil, List.sum_cons, List.sum_nil]
      rw [Nat.mul_add, ih]
      ring

lemma sum_map_add_one_range (N : ℕ) :
    ((List.range N).map (fun n => n + 1)).sum = N * (N + 1) / 2 := by
  have h := two_mul_sum_map_add_one_range N
  omega

lemma length_specZernikePairs (Nzer : ℕ) :
    (specZernikePairs Nzer).length = (Nzer + 1) * (Nzer + 2) / 2 := by
  unfold specZernikePairs
  rw [List.length_flatMap]
  have h : List.map (List.length ∘ fun n => (zernikeMs n).map (fun m => ((n : ℕ), m)))
      (List.range (Nzer + 1)) = (List.range (Nzer + 1)).map (fun n => n + 1) := by
    apply List.map_congr_left
    intro n _
    simp [Function.comp, length_zernikeMs]
  rw [h, sum_map_add_one_range]

/-- C1: for every non-empty distortion list, with `Nzer` the maximal order,
the bar chart's tick labels are exactly the strings `C{mode}({n}, {m})` for
the pairs `(n, m)` with `0 ≤ n ≤ Nzer`, `-n ≤ m ≤ n` and `n + m` even,
enumerated in order of increasing `n` and, within each `n`, increasing `m`
(the enumeration `specZernikePairs`, characterised by membership and strict
lexicographic sortedness below), and consequently the number of tick labels
is `(Nzer + 1) * (Nzer + 2) / 2`. -/
theorem C1_tick_labels (c : MplCanvas) (distortions : List ZernikeDistortion)
    (labels : List String) (mode : String) (absolute : Bool)
    (hne : distortions ≠ []) :
    (plot_bar_chart_core c distortions labels mode absolute).axes.xticklabels =
        (specZernikePairs (maxNzer distortions)).map (fun p => zernikeLabel mode p.1 p.2) ∧
    (∀ n : ℕ, ∀ m : ℤ, ((n, m) ∈ specZernikePairs (maxNzer distortions) ↔
        n ≤ maxNzer distortions ∧ -(n : ℤ) ≤ m ∧ m ≤ (n : ℤ) ∧ ((n : ℤ) + m) % 2 = 0)) ∧
    (specZernikePairs (maxNzer distortions)).Pairwise
        (fun p q => p.1 < q.1 ∨ (p.1 = q.1 ∧ p.2 < q.2)) ∧
    (plot_bar_chart_core c distortions labels mode absolute).axes.xticklabels.length =
        (maxNzer distortions + 1) * (maxNzer distortions + 2) / 2 := by
  have hx : (plot_bar_chart_core c distortions labels mode absolute).axes.xticklabels =
      zernikeTicklabels mode (maxNzer distortions) := rfl
  refine ⟨?_, ?_, ?_, ?_⟩
  · rw [hx, zernikeTicklabels_eq_map]
  · intro n m
    exact mem_specZernikePairs (maxNzer distortions) n m
  · exact pairwise_specZernikePairs (maxNzer distortions)
  · rw [hx, zernikeTicklabels_eq_map, List.length_map, length_specZernikePairs]

/-- Witness for C1 at a concrete order-2 distortion: six tick labels. -/
theorem C1_tick_labels_witness :
    (plot_bar_chart_core ⟨AxesState.empty⟩ [⟨2, [0], [0]⟩] ["d"] "x" false).axes.xticklabels.length =
      (maxNzer [⟨2, [0], [0]⟩] + 1) * (maxNzer [⟨2, [0], [0]⟩] + 2) / 2 :=
  (C1_tick_labels ⟨AxesState.empty⟩ [⟨2, [0], [0]⟩] ["d"] "x" false (by decide)).2.2.2

/-! ### Bar access helpers -/

/-- Observation: bar `i` of a canvas (the `i`-th `axes.bar` call). -/
def barOf (r : MplCanvas) (i : ℕ) : BarCall :=
  r.axes.bars.getD i default

/-- Observation: center of bar `i` at tick index `j`. -/
def centerOf (r : MplCanvas) (i j : ℕ) : ℚ :=
  (barOf r i).centers.getD j 0

lemma core_bars_length (c : MplCanvas) (ds : List ZernikeDistortion) (ls : List String)
    (mode : String) (absolute : Bool) :
    (plot_bar_chart_core c ds ls mode absolute).axes.bars.length = ds.length := by
  simp [plot_bar_chart_core, List.enum_length]

lemma core_xticks_length (c : MplCanvas) (ds : List ZernikeDistortion) (ls : List String)
    (mode : String) (absolute : Bool) :
    (plot_bar_chart_core c ds ls mode absolute).axes.xticks.length =
      (zernikeTicklabels mode (maxNzer ds)).length := by
  simp [plot_bar_chart_core]

lemma core_xticks_getD (c : MplCanvas) (ds : List ZernikeDistortion) (ls : List String)
    (mode : String) (absolute : Bool) {j : ℕ}
    (hj : j < (zernikeTicklabels mode (maxNzer ds)).length) :
    (plot_bar_chart_core c ds ls mode absolute).axes.xticks.getD j 0 = (j : ℚ) := by
  unfold plot_bar_chart_core
  simp only
  rw [List.getD_eq_getElem _ _ (by simpa using hj)]
  simp

lemma core_bar (c : MplCanvas) (ds : List ZernikeDistortion) (ls : List String)
    (mode : String) (absolute : Bool) {i : ℕ} (hi : i < ds.length) :
    barOf (plot_bar_chart_core c ds ls mode absolute) i =
      { centers := ((List.range (zernikeTicklabels mode (maxNzer ds)).length).map
            (fun j : ℕ => (j : ℚ))).map
            (fun xv => xv + (-0.4 + (0.8 / (ds.length : ℚ)) / 2) +
              (i : ℚ) * (0.8 / (ds.length : ℚ)))
        heights :=
          (if absolute then
            (zernikePad
              (if mode = "x" then (ds.getD i default).parameters_x
                else (ds.getD i default).parameters_y)
              (zernikeTicklabels mode (maxNzer ds)).length).map (fun v => |v|)
          else
            zernikePad
              (if mode = "x" then (ds.getD i default).parameters_x
                else (ds.getD i default).parameters_y)
              (zernikeTicklabels mode (maxNzer ds)).length)
        width := 0.8 / (ds.length : ℚ)
        label := ls.getD i ""
        colorIdx := (i : ℚ) / (ds.length : ℚ) } := by
  unfold barOf plot_bar_chart_core
  simp only
  rw [List.getD_eq_getElem _ _ (by simp [List.enum_length]; exact hi)]
  rw [List.getElem_map, List.getElem_enum]
  rw [List.getD_eq_getElem ds default hi]

lemma core_center (c : MplCanvas) (ds : List ZernikeDistortion) (ls : List String)
    (mode : String) (absolute : Bool) {i j : ℕ} (hi : i < ds.length)
    (hj : j < (zernikeTicklabels mode (maxNzer ds)).length) :
    centerOf (plot_bar_chart_core c ds ls mode absolute) i j =
      (j : ℚ) + (-0.4 + (0.8 / (ds.length : ℚ)) / 2) +
        (i : ℚ) * (0.8 / (ds.length : ℚ)) := by
  unfold centerOf
  rw [core_bar c ds ls mode absolute hi]
  simp only
  rw [List.getD_eq_getElem _ _ (by simpa using hj)]
  simp

lemma biUnion_Icc_contig (L w : ℚ) (hw : 0 ≤ w) (k : ℕ) :
    (⋃ i ∈ Finset.range (k + 1), Set.Icc (L + (i : ℚ) * w) (L + (i : ℚ) * w + w)) =
      Set.Icc L (L + ((k : ℚ) + 1) * w) := by
  induction k with
  | zero => norm_num
  | succ k ih =>
      rw [Finset.range_succ, Finset.set_biUnion_insert, ih, Set.union_comm]
      have h1 : L ≤ L + ((k : ℚ) + 1) * w := by nlinarith
      have h2 : L + ((k : ℚ) + 1) * w ≤ L + ((k : ℚ) + 1) * w + w := by linarith
      have h3 : Set.Icc (L + ((k : ℚ) + 1) * w) (L + ((k : ℚ) + 1) * w + w) =
          Set.Icc (L + ((k : ℚ) + 1) * w) (L + ((k : ℚ) + 1 + 1) * w) := by
        congr 1
        ring
      have h4 : (((k : ℕ) + 1 : ℕ) : ℚ) = (k : ℚ) + 1 := by push_cast; ring
      rw [h4, h3, Set.Icc_union_Icc_eq_Icc h1 (by nlinarith)]

/-- C7: chart layout geometry over exact rationals: with `k` distortions each
bar has width `0.8 / k`; bar `i` at the tick at position `x` is centred at
`x - 0.4 + (2 i + 1) * 0.4 / k`; the bars of one tick group are pairwise
non-overlapping (interiors disjoint: consecutive bars only touch); and their
union is exactly the interval `[x - 0.4, x + 0.4]` centred on the tick. -/
theorem C7_bar_layout (c : MplCanvas) (distortions : List ZernikeDistortion)
    (labels : List String) (mode : String) (absolute : Bool) (k : ℕ)
    (hk : distortions.length = k) (hpos : 0 < k) :
    let r := plot_bar_chart_core c distortions labels mode absolute
    r.axes.bars.length = k ∧
    (∀ i, i < k → (barOf r i).width = 0.8 / (k : ℚ)) ∧
    (∀ i j, i < k → j < r.axes.xticks.length →
      centerOf r i j =
        r.axes.xticks.getD j 0 - 0.4 + (2 * (i : ℚ) + 1) * 0.4 / (k : ℚ)) ∧
    (∀ i1 i2 j, i1 < i2 → i2 < k → j < r.axes.xticks.length →
      centerOf r i1 j + (0.8 / (k : ℚ)) / 2 ≤ centerOf r i2 j - (0.8 / (k : ℚ)) / 2) ∧
    (∀ j, j < r.axes.xticks.length →
      (⋃ i ∈ Finset.range k,
          Set.Icc (centerOf r i j - (0.8 / (k : ℚ)) / 2)
            (centerOf r i j + (0.8 / (k : ℚ)) / 2)) =
        Set.Icc (r.axes.xticks.getD j 0 - 0.4) (r.axes.xticks.getD j 0 + 0.4)) := by
  subst hk
  intro r
  have hkQ : ((distortions.length : ℚ)) ≠ 0 := by
    exact_mod_cast Nat.pos_iff_ne_zero.1 hpos
  have hwpos : 0 < 0.8 / (distortions.length : ℚ) := by
    apply div_pos (by norm_num)
    exact_mod_cast hpos
  have hxlen : r.axes.xticks.length = (zernikeTicklabels mode (maxNzer distortions)).length :=
    core_xticks_length c distortions labels mode absolute
  refine ⟨core_bars_length c distortions labels mode absolute, ?_, ?_, ?_, ?_⟩
  · intro i hi
    rw [core_bar c distortions labels mode absolute hi]
  · intro i j hi hj
    rw [hxlen] at hj
    rw [core_center c distortions labels mode absolute hi hj,
        core_xticks_getD c distortions labels mode absolute hj]
    field_simp
    ring
  · intro i1 i2 j h12 hi2 hj
    rw [hxlen] at hj
    rw [core_center c distortions labels mode absolute (by omega) hj,
        core_center c distortions labels mode absolute hi2 hj]
    have hle : (i1 : ℚ) + 1 ≤ (i2 : ℚ) := by exact_mod_cast h12
    nlinarith [hwpos, hle]
  · intro j hj
    rw [hxlen] at hj
    obtain ⟨k2, hk2⟩ : ∃ k2, distortions.length = k2 + 1 :=
      ⟨distortions.length - 1, by omega⟩
    have hstep : (⋃ i ∈ Finset.range distortions.length,
        Set.Icc (centerOf r i j - (0.8 / (distortions.length : ℚ)) / 2)
          (centerOf r i j + (0.8 / (distortions.length : ℚ)) / 2)) =
        (⋃ i ∈ Finset.range distortions.length,
          Set.Icc (((j : ℚ) - 0.4) + (i : ℚ) * (0.8 / (distortions.length : ℚ)))
            (((j : ℚ) - 0.4) + (i : ℚ) * (0.8 / (distortions.length : ℚ)) +
              0.8 / (distortions.length : ℚ))) := by
      refine Set.iUnion₂_congr ?_
      intro i hi
      rw [core_center c distortions labels mode absolute (Finset.mem_range.1 hi) hj]
      congr 1 <;> ring
    rw [hstep, core_xticks_getD c distortions labels mode absolute hj]
    rw [hk2] at hkQ ⊢
    rw [biUnion_Icc_contig ((j : ℚ) - 0.4) (0.8 / ((k2 + 1 : ℕ) : ℚ)) (by positivity) k2]
    congr 1
    field_simp
    ring

/-- Witness for C7 with two concrete distortions: bar 0 has width `0.8 / 2`. -/
theorem C7_bar_layout_witness :
    (barOf (plot_bar_chart_core ⟨AxesState.empty⟩
        [⟨0, [1], [2]⟩, ⟨1, [0, 0, 0], [0, 0, 0]⟩] ["a", "b"] "x" false) 0).width =
      0.8 / (2 : ℚ) :=
  (C7_bar_layout ⟨AxesState.empty⟩ [⟨0, [1], [2]⟩, ⟨1, [0, 0, 0], [0, 0, 0]⟩]
    ["a", "b"] "x" false 2 (by decide) (by decide)).2.1 0 (by decide)

/-! ### Validation of plot_bar_chart (claim C2) -/

/-- The claim's enumeration of the invalid inputs of `plot_bar_chart`:
`mpl_canvas` not an `MplCanvas`; `distortions` not a list, empty, or with a
non-`ZernikeDistortion` element; `labels` not a list, empty, or with a
non-`str` element; length mismatch; `mode` neither `x` nor `y`. -/
def plotInputsInvalid (mpl_canvas distortions labels : PyObj) (mode : String) : Prop :=
  isMplCanvas mpl_canvas = false ∨
  pyListElems distortions = none ∨
  pyListElems distortions = some [] ∨
  (∃ xs, pyListElems distortions = some xs ∧ ∃ x ∈ xs, isZernikeDistortion x = false) ∨
  pyListElems labels = none ∨
  pyListElems labels = some [] ∨
  (∃ xs, pyListElems labels = some xs ∧ ∃ x ∈ xs, isStr x = false) ∨
  (∃ xs ys, pyListElems distortions = some xs ∧ pyListElems labels = some ys ∧
    ys.length ≠ xs.length) ∨
  (mode ≠ "x" ∧ mode ≠ "y")

lemma plot_bar_chart_ok (c : MplCanvas) (ds ls : List PyObj) (mode : String)
    (absolute : Bool) (h1 : ds.length ≠ 0) (h2 : ds.all isZernikeDistortion = true)
    (h3 : ls.length ≠ 0) (h4 : ls.all isStr = true) (h5 : ls.length = ds.length)
    (h6 : mode = "x" ∨ mode = "y") :
    plot_bar_chart (PyObj.canvas c) (PyObj.list ds) (PyObj.list ls) mode absolute =
      Except.ok (plot_bar_chart_core c (ds.map toDistortion) (ls.map toStr) mode absolute) := by
  simp only [plot_bar_chart]
  rw [if_neg h1, if_neg (not_not_intro h2), if_neg h3, if_neg (not_not_intro h4),
      if_neg (not_not_intro h5), if_neg (not_not_intro h6)]

lemma plot_bar_chart_error_pc (mc ds ls : PyObj) (mode : String) (absolute : Bool)
    (msg : String) (pc : PyObj)
    (h : plot_bar_chart mc ds ls mode absolute = Except.error (msg, pc)) : pc = mc := by
  cases mc <;> cases ds <;> cases ls <;> simp only [plot_bar_chart] at h <;>
    first
      | (split_ifs at h <;> simp_all)
      | simp_all

lemma plot_bar_chart_error_iff (mpl_canvas distortions labels : PyObj) (mode : String)
    (absolute : Bool) :
    (∃ e, plot_bar_chart mpl_canvas distortions labels mode absolute = Except.error e) ↔
      plotInputsInvalid mpl_canvas distortions labels mode := by
  unfold plotInputsInvalid
  cases mpl_canvas with
  | distortion d => exact iff_of_true ⟨_, rfl⟩ (Or.inl rfl)
  | str s => exact iff_of_true ⟨_, rfl⟩ (Or.inl rfl)
  | list xs => exact iff_of_true ⟨_, rfl⟩ (Or.inl rfl)
  | other => exact iff_of_true ⟨_, rfl⟩ (Or.inl rfl)
  | canvas c =>
    cases distortions with
    | canvas c2 => exact iff_of_true ⟨_, rfl⟩ (Or.inr (Or.inl rfl))
    | distortion d => exact iff_of_true ⟨_, rfl⟩ (Or.inr (Or.inl rfl))
    | str s => exact iff_of_true ⟨_, rfl⟩ (Or.inr (Or.inl rfl))
    | other => exact iff_of_true ⟨_, rfl⟩ (Or.inr (Or.inl rfl))
    | list ds =>
      by_cases h1 : ds.length = 0
      · have hds : ds = [] := List.length_eq_zero.1 h1
        subst hds
        exact iff_of_true ⟨_, rfl⟩ (Or.inr (Or.inr (Or.inl rfl)))
      · by_cases h2 : ds.all isZernikeDistortion = true
        · cases labels with
          | canvas c2 =>
              refine iff_of_true ⟨("Invalid labels list", PyObj.canvas c), ?_⟩
                (Or.inr (Or.inr (Or.inr (Or.inr (Or.inl rfl)))))
              simp only [plot_bar_chart]
              rw [if_neg h1, if_neg (not_not_intro h2)]
          | distortion d =>
              refine iff_of_true ⟨("Invalid labels list", PyObj.canvas c), ?_⟩
                (Or.inr (Or.inr (Or.inr (Or.inr (Or.inl rfl)))))
              simp only [plot_bar_chart]
              rw [if_neg h1, if_neg (not_not_intro h2)]
          | str s =>
              refine iff_of_true ⟨("Invalid labels list", PyObj.canvas c), ?_⟩
                (Or.inr (Or.inr (Or.inr (Or.inr (Or.inl rfl)))))
              simp only [plot_bar_chart]
              rw [if_neg h1, if_neg (not_not_intro h2)]
          | other =>
              refine iff_of_true ⟨("Invalid labels list", PyObj.canvas c), ?_⟩
                (Or.inr (Or.inr (Or.inr (Or.inr (Or.inl rfl)))))
              simp only [plot_bar_chart]
              rw [if_neg h1, if_neg (not_not_intro h2)]
          | list ls =>
            by_cases h3 : ls.length = 0
            · have hls : ls = [] := List.length_eq_zero.1 h3
              subst hls
              refine iff_of_true ⟨("Invalid labels list", PyObj.canvas c), ?_⟩
                (Or.inr (Or.inr (Or.inr (Or.inr (Or.inr (Or.inl rfl))))))
              simp only [plot_bar_chart]
              rw [if_neg h1, if_neg (not_not_intro h2)]
              rfl
            · by_cases h4 : ls.all isStr = true
              · by_cases h5 : ls.length = ds.length
                · by_cases h6 : mode = "x" ∨ mode = "y"
                  · refine iff_of_false ?_ ?_
                    · rw [plot_bar_chart_ok c ds ls mode absolute h1 h2 h3 h4 h5 h6]
                      rintro ⟨e, he⟩
                      exact Except.noConfusion he
                    · rintro (H | H | H | H | H | H | H | H | H)
                      · exact Bool.noConfusion H
                      · exact Option.noConfusion H
                      · simp only [pyListElems, Option.some_inj] at H
                        exact h1 (by rw [H]; rfl)
                      · obtain ⟨xs, hxs, x, hx, hfx⟩ := H
                        simp only [pyListElems, Option.some_inj] at hxs
                        subst hxs
                        rw [List.all_eq_true] at h2
                        rw [h2 x hx] at hfx
                        exact Bool.noConfusion hfx
                      · exact Option.noConfusion H
                      · simp only [pyListElems, Option.some_inj] at H
                        exact h3 (by rw [H]; rfl)
                      · obtain ⟨xs, hxs, x, hx, hfx⟩ := H
                        simp only [pyListElems, Option.some_inj] at hxs
                        subst hxs
                        rw [List.all_eq_true] at h4
                        rw [h4 x hx] at hfx
                        exact Bool.noConfusion hfx
                      · obtain ⟨xs, ys, hxs, hys, hne⟩ := H
                        simp only [pyListElems, Option.some_inj] at hxs hys
                        subst hxs
                        subst hys
                        exact hne h5
                      · rcases h6 with h6 | h6
                        · exact H.1 h6
                        · exact H.2 h6
                  · refine iff_of_true ⟨("Invalid mode, must be x or y", PyObj.canvas c), ?_⟩ ?_
                    · simp only [plot_bar_chart]
                      rw [if_neg h1, if_neg (not_not_intro h2), if_neg h3,
                          if_neg (not_not_intro h4), if_neg (not_not_intro h5), if_pos h6]
                    · rw [not_or] at h6
                      exact Or.inr (Or.inr (Or.inr (Or.inr (Or.inr (Or.inr (Or.inr
                        (Or.inr ⟨h6.1, h6.2⟩)))))))
                · refine iff_of_true
                    ⟨("Labels and distortions must have the same length", PyObj.canvas c), ?_⟩ ?_
                  · simp only [plot_bar_chart]
                    rw [if_neg h1, if_neg (not_not_intro h2), if_neg h3,
                        if_neg (not_not_intro h4), if_pos h5]
                  · exact Or.inr (Or.inr (Or.inr (Or.inr (Or.inr (Or.inr (Or.inr
                      (Or.inl ⟨ds, ls, rfl, rfl, h5⟩)))))))
              · refine iff_of_true ⟨("Invalid label object", PyObj.canvas c), ?_⟩ ?_
                · simp only [plot_bar_chart]
                  rw [if_neg h1, if_neg (not_not_intro h2), if_neg h3, if_pos h4]
                · rw [List.all_eq_true] at h4
                  push_neg at h4
                  obtain ⟨x, hx, hfx⟩ := h4
                  exact Or.inr (Or.inr (Or.inr (Or.inr (Or.inr (Or.inr (Or.inl
                    ⟨ls, rfl, x, hx, by simpa using hfx⟩))))))
        · refine iff_of_true ⟨("Invalid distortion object", PyObj.canvas c), ?_⟩ ?_
          · simp only [plot_bar_chart]
            rw [if_neg h1, if_pos h2]
          · rw [List.all_eq_true] at h2
            push_neg at h2
            obtain ⟨x, hx, hfx⟩ := h2
            exact Or.inr (Or.inr (Or.inr (Or.inl ⟨ds, rfl, x, hx, by simpa using hfx⟩)))

/-- C2: `plot_bar_chart` raises `ValueError` if and only if its inputs are
invalid in the enumerated sense (canvas not an `MplCanvas`; distortions not
a list, empty, or holding a non-`ZernikeDistortion`; labels not a list,
empty, or holding a non-string; length mismatch; mode neither `x` nor `y`),
and every raise happens before `axes.clear()`, so the canvas recorded at
raise time is the unchanged argument. The hypothesis is the `pycvcam`
library invariant on distortion elements, under which the total model of
the numpy zero-padding is faithful. -/
theorem C2_validation (mpl_canvas distortions labels : PyObj) (mode : String)
    (absolute : Bool)
    (hwf : ∀ x ∈ (pyListElems distortions).getD [],
      isZernikeDistortion x = true → (toDistortion x).WF) :
    ((∃ e, plot_bar_chart mpl_canvas distortions labels mode absolute = Except.error e) ↔
      plotInputsInvalid mpl_canvas distortions labels mode) ∧
    (∀ msg pc, plot_bar_chart mpl_canvas distortions labels mode absolute =
        Except.error (msg, pc) → pc = mpl_canvas) :=
  ⟨plot_bar_chart_error_iff mpl_canvas distortions labels mode absolute,
   fun msg pc h => plot_bar_chart_error_pc mpl_canvas distortions labels mode absolute msg pc h⟩

/-- Witness for C2 at the concrete call with an empty distortions list: the
reported error matches an invalid input. -/
theorem C2_validation_witness :
    plotInputsInvalid (PyObj.canvas ⟨AxesState.empty⟩) (PyObj.list []) (PyObj.list []) "x" :=
  (C2_validation (PyObj.canvas ⟨AxesState.empty⟩) (PyObj.list []) (PyObj.list []) "x" false
      (by decide)).1.mp ⟨("Invalid distortions list", PyObj.canvas ⟨AxesState.empty⟩), rfl⟩

/-! ### update_plot dispatch (claims C3, C4) -/

lemma isPrefixOf_eq_take (l1 : List Char) :
    ∀ l2 : List Char, l1.isPrefixOf l2 = true → l1 = l2.take l1.length := by
  induction l1 with
  | nil => intro l2 _; rfl
  | cons a r ih =>
      intro l2 h
      cases l2 with
      | nil => exact absurd h (by simp [List.isPrefixOf])
      | cons b r2 =>
          have h2 : (a == b && r.isPrefixOf r2) = true := h
          rw [Bool.and_eq_true] at h2
          rw [List.length_cons, List.take_succ_cons, eq_of_beq h2.1, ← ih r2 h2.2]

lemma figurePrefixExclusive (s : String) (h1 : pyStartsWith s "Figure 1" = true)
    (h2 : pyStartsWith s "Figure 2" = true) : False := by
  unfold pyStartsWith at h1 h2
  have e1 := isPrefixOf_eq_take "Figure 1".data s.data h1
  have e2 := isPrefixOf_eq_take "Figure 2".data s.data h2
  have hlen : "Figure 1".data.length = "Figure 2".data.length := by decide
  have heq : "Figure 1".data = "Figure 2".data := by
    rw [e1, e2, hlen]
  exact absurd heq (by decide)

lemma runPlot_eq_core (c : MplCanvas) (dl : List (ZernikeDistortion × String))
    (mode : String) (absolute : Bool) (hdl : dl ≠ [])
    (hmode : mode = "x" ∨ mode = "y") :
    runPlot c dl mode absolute =
      plot_bar_chart_core c (dl.map (fun p => p.1)) (dl.map (fun p => p.2))
        mode absolute := by
  unfold runPlot
  rw [plot_bar_chart_ok c _ _ mode absolute
      (by simpa using hdl)
      (by simp only [List.all_eq_true, List.mem_map]
          rintro x ⟨p, hp, rfl⟩
          rfl)
      (by simpa using hdl)
      (by simp only [List.all_eq_true, List.mem_map]
          rintro x ⟨p, hp, rfl⟩
          rfl)
      (by simp) hmode]
  simp only [List.map_map]
  rfl

lemma plotData_nonempty_selected (ui : UIState) (hdl : plotData ui ≠ []) :
    (selectedItems ui).isEmpty = false := by
  rcases h : (selectedItems ui).isEmpty with _ | _
  · rfl
  · exfalso
    apply hdl
    unfold plotData
    rw [List.isEmpty_iff] at h
    rw [h]
    rfl

lemma update_plot_canvas_eq (ui : UIState) (hdl : plotData ui ≠ []) :
    update_plot_canvas ui =
      (if pyStartsWith ui.figure_text "Figure 1" then
        plot_bar_chart_core (MplCanvas.clearAxes ui.canvas)
          ((plotData ui).map (fun p => p.1)) ((plotData ui).map (fun p => p.2))
          "x" ui.abs_checked
      else if pyStartsWith ui.figure_text "Figure 2" then
        plot_bar_chart_core (MplCanvas.clearAxes ui.canvas)
          ((plotData ui).map (fun p => p.1)) ((plotData ui).map (fun p => p.2))
          "y" ui.abs_checked
      else MplCanvas.clearAxes ui.canvas) := by
  unfold update_plot_canvas
  rw [if_neg (by rw [plotData_nonempty_selected ui hdl]; exact Bool.false_ne_true)]
  rw [if_neg (by rw [List.isEmpty_iff]; exact hdl)]
  rcases h1 : pyStartsWith ui.figure_text "Figure 1" with _ | _
  · rcases h2 : pyStartsWith ui.figure_text "Figure 2" with _ | _
    · simp only [Bool.false_eq_true, if_false]
    · simp only [Bool.false_eq_true, if_false, if_true]
      exact runPlot_eq_core _ _ _ _ hdl (Or.inr rfl)
  · simp only [if_true]
    exact runPlot_eq_core _ _ _ _ hdl (Or.inl rfl)

/-- C3: the coefficient vector plotted for each distortion is
`parameters_x` when mode is `x` and `parameters_y` when mode is `y` (the
heights are that vector zero-padded, with absolute value applied only when
requested); and `update_plot` hands the canvas to `plot_bar_chart` with
mode `x` exactly when the figure selector text starts with `Figure 1` and
with mode `y` exactly when it starts with `Figure 2` (the two prefixes are
mutually exclusive, see `figurePrefixExclusive`). -/
theorem C3_mode_selects_parameters :
    (∀ (c : MplCanvas) (ds : List ZernikeDistortion) (ls : List String)
        (absolute : Bool) (i : ℕ), i < ds.length →
      (barOf (plot_bar_chart_core c ds ls "x" absolute) i).heights =
        (let padded := zernikePad (ds.getD i default).parameters_x
            (zernikeTicklabels "x" (maxNzer ds)).length
         if absolute then padded.map (fun v => |v|) else padded) ∧
      (barOf (plot_bar_chart_core c ds ls "y" absolute) i).heights =
        (let padded := zernikePad (ds.getD i default).parameters_y
            (zernikeTicklabels "y" (maxNzer ds)).length
         if absolute then padded.map (fun v => |v|) else padded)) ∧
    (∀ ui : UIState, plotData ui ≠ [] →
      (pyStartsWith ui.figure_text "Figure 1" = true →
        (update_plot ui).canvas =
          plot_bar_chart_core (MplCanvas.clearAxes ui.canvas)
            ((plotData ui).map (fun p => p.1)) ((plotData ui).map (fun p => p.2))
            "x" ui.abs_checked) ∧
      (pyStartsWith ui.figure_text "Figure 2" = true →
        (update_plot ui).canvas =
          plot_bar_chart_core (MplCanvas.clearAxes ui.canvas)
            ((plotData ui).map (fun p => p.1)) ((plotData ui).map (fun p => p.2))
            "y" ui.abs_checked) ∧
      (pyStartsWith ui.figure_text "Figure 1" = false →
        pyStartsWith ui.figure_text "Figure 2" = false →
        (update_plot ui).canvas = MplCanvas.clearAxes ui.canvas)) := by
  constructor
  · intro c ds ls absolute i hi
    constructor
    · rw [core_bar c ds ls "x" absolute hi]
      rfl
    · rw [core_bar c ds ls "y" absolute hi]
      rfl
  · intro ui hdl
    have hc : (update_plot ui).canvas = update_plot_canvas ui := rfl
    refine ⟨?_, ?_, ?_⟩
    · intro h1
      rw [hc, update_plot_canvas_eq ui hdl, if_pos h1]
    · intro h2
      have h1 : pyStartsWith ui.figure_text "Figure 1" = false := by
        rcases h : pyStartsWith ui.figure_text "Figure 1" with _ | _
        · rfl
        · exact absurd (figurePrefixExclusive ui.figure_text h h2) (fun hf => hf)
      rw [hc, update_plot_canvas_eq ui hdl, if_neg (by rw [h1]; exact Bool.false_ne_true),
          if_pos h2]
    · intro h1 h2
      rw [hc, update_plot_canvas_eq ui hdl, if_neg (by rw [h1]; exact Bool.false_ne_true),
          if_neg (by rw [h2]; exact Bool.false_ne_true)]

/-- Witness for C3 at a concrete order-0 distortion: the plotted heights in
mode `x` are the `parameters_x` vector. -/
theorem C3_mode_selects_parameters_witness :
    (barOf (plot_bar_chart_core ⟨AxesState.empty⟩ [⟨0, [3], [4]⟩] ["f"] "x" false) 0).heights =
      [3] := by
  have h := (C3_mode_selects_parameters.1 ⟨AxesState.empty⟩ [⟨0, [3], [4]⟩] ["f"] false 0
    (by decide)).1
  rw [h]
  decide

/-- C4: when `absolute` is true every plotted bar height is the absolute
value of the corresponding zero-padded coefficient, and when it is false it
is the coefficient itself; and `update_plot` passes `absolute` equal to the
checked state of the `Absolute values` checkbox at the time it runs. -/
theorem C4_absolute_values :
    (∀ (c : MplCanvas) (ds : List ZernikeDistortion) (ls : List String)
        (mode : String) (i : ℕ), i < ds.length →
      (barOf (plot_bar_chart_core c ds ls mode true) i).heights =
        (zernikePad
          (if mode = "x" then (ds.getD i default).parameters_x
            else (ds.getD i default).parameters_y)
          (zernikeTicklabels mode (maxNzer ds)).length).map (fun v => |v|) ∧
      (barOf (plot_bar_chart_core c ds ls mode false) i).heights =
        zernikePad
          (if mode = "x" then (ds.getD i default).parameters_x
            else (ds.getD i default).parameters_y)
          (zernikeTicklabels mode (maxNzer ds)).length) ∧
    (∀ (ui : UIState) (b : Bool), ui.abs_checked = b → plotData ui ≠ [] →
      (pyStartsWith ui.figure_text "Figure 1" = true →
        (update_plot ui).canvas =
          plot_bar_chart_core (MplCanvas.clearAxes ui.canvas)
            ((plotData ui).map (fun p => p.1)) ((plotData ui).map (fun p => p.2))
            "x" b) ∧
      (pyStartsWith ui.figure_text "Figure 2" = true →
        (update_plot ui).canvas =
          plot_bar_chart_core (MplCanvas.clearAxes ui.canvas)
            ((plotData ui).map (fun p => p.1)) ((plotData ui).map (fun p => p.2))
            "y" b)) := by
  constructor
  · intro c ds ls mode i hi
    constructor
    · rw [core_bar c ds ls mode true hi]
      rfl
    · rw [core_bar c ds ls mode false hi]
      rfl
  · intro ui b hb hdl
    subst hb
    have hc : (update_plot ui).canvas = update_plot_canvas ui := rfl
    constructor
    · intro h1
      rw [hc, update_plot_canvas_eq ui hdl, if_pos h1]
    · intro h2
      have h1 : pyStartsWith ui.figure_text "Figure 1" = false := by
        rcases h : pyStartsWith ui.figure_text "Figure 1" with _ | _
        · rfl
        · exact absurd (figurePrefixExclusive ui.figure_text h h2) (fun hf => hf)
      rw [hc, update_plot_canvas_eq ui hdl, if_neg (by rw [h1]; exact Bool.false_ne_true),
          if_pos h2]

/-- Witness for C4 at a concrete distortion with a negative coefficient:
with `absolute = true` the plotted height is its absolute value. -/
theorem C4_absolute_values_witness :
    (barOf (plot_bar_chart_core ⟨AxesState.empty⟩ [⟨0, [-3], [4]⟩] ["f"] "x" true) 0).heights =
      [3] := by
  have h := (C4_absolute_values.1 ⟨AxesState.empty⟩ [⟨0, [-3], [4]⟩] ["f"] "x" 0
    (by decide)).1
  rw [h]
  decide

/-! ### File-management helper lemmas (claims C5, C6, C8) -/

lemma selectMatching_texts (p : String) (l : List ListItem) :
    (selectMatching p l).map (fun it => it.text) = l.map (fun it => it.text) := by
  unfold selectMatching
  rw [List.map_map]
  apply List.map_congr_left
  intro it _
  dsimp only [Function.comp]
  split <;> rfl

lemma selectFirst_texts (p : String) (l : List ListItem) :
    (selectFirst p l).map (fun it => it.text) = l.map (fun it => it.text) := by
  induction l with
  | nil => rfl
  | cons it rest ih =>
      unfold selectFirst
      split <;> simp [ih]

lemma clearAndSelectFirst_texts (p : String) (l : List ListItem) :
    (clearAndSelectFirst p l).map (fun it => it.text) = l.map (fun it => it.text) := by
  induction l with
  | nil => rfl
  | cons it rest ih =>
      unfold clearAndSelectFirst
      split
      · simp [List.map_map]
      · simp [ih]

lemma dropSelectStep_fd (ui : UIState) (p : String) :
    (dropSelectStep ui p).file_data = ui.file_data := by
  unfold dropSelectStep
  split <;> rfl

lemma dropSelectStep_texts (ui : UIState) (p : String) :
    listTexts (dropSelectStep ui p) = listTexts ui := by
  unfold dropSelectStep listTexts
  split
  · rfl
  · exact selectMatching_texts p ui.file_list

lemma dropSelectStep_readCalls (ui : UIState) (p : String) :
    (dropSelectStep ui p).readCalls = ui.readCalls := by
  unfold dropSelectStep
  split <;> rfl

lemma dropSelectFold (urls : List String) (ui : UIState) :
    (urls.foldl dropSelectStep ui).file_data = ui.file_data ∧
    listTexts (urls.foldl dropSelectStep ui) = listTexts ui ∧
    (urls.foldl dropSelectStep ui).readCalls = ui.readCalls ∧
    (urls.foldl dropSelectStep ui).warnings = ui.warnings := by
  induction urls generalizing ui with
  | nil => exact ⟨rfl, rfl, rfl, rfl⟩
  | cons q rest ih =>
      simp only [List.foldl_cons]
      obtain ⟨h1, h2, h3, h4⟩ := ih (dropSelectStep ui q)
      refine ⟨h1.trans (dropSelectStep_fd ui q), h2.trans (dropSelectStep_texts ui q),
        h3.trans (dropSelectStep_readCalls ui q), h4.trans ?_⟩
      unfold dropSelectStep
      split <;> rfl

lemma openSelectStep_fd (ui : UIState) (p : String) :
    (openSelectStep ui p).file_data = ui.file_data := by
  unfold openSelectStep
  split <;> rfl

lemma openSelectStep_texts (ui : UIState) (p : String) :
    listTexts (openSelectStep ui p) = listTexts ui := by
  unfold openSelectStep listTexts
  split
  · exact selectFirst_texts p ui.file_list
  · rfl

lemma openSelectStep_readCalls (ui : UIState) (p : String) :
    (openSelectStep ui p).readCalls = ui.readCalls := by
  unfold openSelectStep
  split <;> rfl

lemma openSelectFold (paths : List String) (ui : UIState) :
    (paths.foldl openSelectStep ui).file_data = ui.file_data ∧
    listTexts (paths.foldl openSelectStep ui) = listTexts ui ∧
    (paths.foldl openSelectStep ui).readCalls = ui.readCalls ∧
    (paths.foldl openSelectStep ui).warnings = ui.warnings := by
  induction paths generalizing ui with
  | nil => exact ⟨rfl, rfl, rfl, rfl⟩
  | cons q rest ih =>
      simp only [List.foldl_cons]
      obtain ⟨h1, h2, h3, h4⟩ := ih (openSelectStep ui q)
      refine ⟨h1.trans (openSelectStep_fd ui q), h2.trans (openSelectStep_texts ui q),
        h3.trans (openSelectStep_readCalls ui q), h4.trans ?_⟩
      unfold openSelectStep
      split <;> rfl

lemma update_plot_fd (ui : UIState) : (update_plot ui).file_data = ui.file_data := rfl

lemma update_plot_texts (ui : UIState) : listTexts (update_plot ui) = listTexts ui := rfl

lemma update_plot_readCalls (ui : UIState) : (update_plot ui).readCalls = ui.readCalls := rfl

lemma update_plot_warnings (ui : UIState) : (update_plot ui).warnings = ui.warnings := rfl

lemma setCurrentItem_fd (ui : UIState) (p : String) :
    (setCurrentItem ui p).file_data = ui.file_data := rfl

lemma setCurrentItem_texts (ui : UIState) (p : String) :
    listTexts (setCurrentItem ui p) = listTexts ui :=
  clearAndSelectFirst_texts p ui.file_list

lemma setCurrentItem_readCalls (ui : UIState) (p : String) :
    (setCurrentItem ui p).readCalls = ui.readCalls := rfl

lemma dropStep_noop (read : String → Except String ZernikeDistortion)
    (ui : UIState) (n : ℕ) (p : String)
    (hp : p = "" ∨ dictContains ui.file_data p = true) :
    dropStep read (ui, n) p = (ui, n) := by
  unfold dropStep
  rw [if_pos]
  exact hp

lemma dropStep_new_ok (read : String → Except String ZernikeDistortion)
    (ui : UIState) (n : ℕ) (p : String) (d : ZernikeDistortion) (hq : p ≠ "")
    (hc : dictContains ui.file_data p = false) (hr : read p = Except.ok d) :
    dropStep read (ui, n) p =
      ({ ui with
          file_data := ui.file_data ++ [(p, d)]
          file_list := ui.file_list ++ [{ text := p, selected := false }]
          readCalls := ui.readCalls ++ [p] }, n + 1) := by
  unfold dropStep
  rw [if_neg (by rintro (h | h); exact hq h; rw [hc] at h; exact Bool.noConfusion h), hr]

lemma dropStep_new_err (read : String → Except String ZernikeDistortion)
    (ui : UIState) (n : ℕ) (p : String) (e : String) (hq : p ≠ "")
    (hc : dictContains ui.file_data p = false) (hr : read p = Except.error e) :
    dropStep read (ui, n) p =
      ({ ui with
          warnings := ui.warnings ++ [readWarning p e]
          readCalls := ui.readCalls ++ [p] }, n) := by
  unfold dropStep
  rw [if_neg (by rintro (h | h); exact hq h; rw [hc] at h; exact Bool.noConfusion h), hr]

lemma dropEvent_single_fields (read : String → Except String ZernikeDistortion)
    (ui : UIState) (q : String) :
    (dropEvent read ui [q]).file_data = (dropStep read (ui, 0) q).1.file_data ∧
    listTexts (dropEvent read ui [q]) = listTexts (dropStep read (ui, 0) q).1 ∧
    (dropEvent read ui [q]).readCalls = (dropStep read (ui, 0) q).1.readCalls := by
  unfold dropEvent
  rw [if_neg (by simp)]
  simp only [List.foldl_cons, List.foldl_nil]
  exact ⟨dropSelectStep_fd _ _, dropSelectStep_texts _ _, dropSelectStep_readCalls _ _⟩

lemma dropEvent_single_noop (read : String → Except String ZernikeDistortion)
    (ui : UIState) (p : String)
    (hp : p = "" ∨ dictContains ui.file_data p = true) :
    (dropEvent read ui [p]).file_data = ui.file_data ∧
    listTexts (dropEvent read ui [p]) = listTexts ui ∧
    (dropEvent read ui [p]).readCalls = ui.readCalls := by
  obtain ⟨h1, h2, h3⟩ := dropEvent_single_fields read ui p
  rw [dropStep_noop read ui 0 p hp] at h1 h2 h3
  exact ⟨h1, h2, h3⟩

lemma openStep_skip_fields (read : String → Except String ZernikeDistortion)
    (ui : UIState) (p : String) (hp : dictContains ui.file_data p = true) :
    (openStep read ui p).file_data = ui.file_data ∧
    listTexts (openStep read ui p) = listTexts ui ∧
    (openStep read ui p).readCalls = ui.readCalls := by
  unfold openStep
  rw [if_pos hp]
  split
  · exact ⟨setCurrentItem_fd ui p, setCurrentItem_texts ui p, setCurrentItem_readCalls ui p⟩
  · exact ⟨rfl, rfl, rfl⟩

lemma openStep_new_ok (read : String → Except String ZernikeDistortion)
    (ui : UIState) (p : String) (d : ZernikeDistortion)
    (hc : dictContains ui.file_data p = false) (hr : read p = Except.ok d) :
    openStep read ui p =
      { ui with
          file_data := ui.file_data ++ [(p, d)]
          file_list := ui.file_list ++ [{ text := p, selected := false }]
          readCalls := ui.readCalls ++ [p] } := by
  unfold openStep
  rw [if_neg (by rw [hc]; exact Bool.false_ne_true), hr]

lemma openStep_new_err (read : String → Except String ZernikeDistortion)
    (ui : UIState) (p : String) (e : String)
    (hc : dictContains ui.file_data p = false) (hr : read p = Except.error e) :
    openStep read ui p =
      { ui with
          warnings := ui.warnings ++ [readWarning p e]
          readCalls := ui.readCalls ++ [p] } := by
  unfold openStep
  rw [if_neg (by rw [hc]; exact Bool.false_ne_true), hr]

lemma open_files_single_fields (read : String → Except String ZernikeDistortion)
    (ui : UIState) (q : String) :
    (open_files read ui true [q]).file_data = (openStep read ui q).file_data ∧
    listTexts (open_files read ui true [q]) = listTexts (openStep read ui q) ∧
    (open_files read ui true [q]).readCalls = (openStep read ui q).readCalls := by
  unfold open_files
  rw [if_pos rfl]
  simp only [List.foldl_cons, List.foldl_nil]
  exact ⟨(update_plot_fd _).trans (openSelectStep_fd _ _),
    (update_plot_texts _).trans (openSelectStep_texts _ _),
    (update_plot_readCalls _).trans (openSelectStep_readCalls _ _)⟩

lemma open_files_single_skip (read : String → Except String ZernikeDistortion)
    (ui : UIState) (p : String) (hp : dictContains ui.file_data p = true) :
    (open_files read ui true [p]).file_data = ui.file_data ∧
    listTexts (open_files read ui true [p]) = listTexts ui ∧
    (open_files read ui true [p]).readCalls = ui.readCalls := by
  obtain ⟨h1, h2, h3⟩ := open_files_single_fields read ui p
  obtain ⟨g1, g2, g3⟩ := openStep_skip_fields read ui p hp
  exact ⟨h1.trans g1, h2.trans g2, h3.trans g3⟩

lemma dictContains_of_eq_false (b : Bool) (h : ¬ b = true) : b = false := by
  rcases b with _ | _
  · rfl
  · exact absurd rfl h

lemma dropEvent_twice (read : String → Except String ZernikeDistortion)
    (ui : UIState) (q : String) :
    (dropEvent read (dropEvent read ui [q]) [q]).file_data =
      (dropEvent read ui [q]).file_data ∧
    listTexts (dropEvent read (dropEvent read ui [q]) [q]) =
      listTexts (dropEvent read ui [q]) := by
  by_cases hp : q = "" ∨ dictContains ui.file_data q = true
  · obtain ⟨h1, _, _⟩ := dropEvent_single_noop read ui q hp
    have hp2 : q = "" ∨ dictContains (dropEvent read ui [q]).file_data q = true := by
      rcases hp with h | h
      · exact Or.inl h
      · right
        rw [h1]
        exact h
    obtain ⟨g1, g2, _⟩ := dropEvent_single_noop read (dropEvent read ui [q]) q hp2
    exact ⟨g1, g2⟩
  · push_neg at hp
    obtain ⟨hq, hc⟩ := hp
    have hc2 : dictContains ui.file_data q = false := dictContains_of_eq_false _ hc
    cases hr : read q with
    | ok d =>
        obtain ⟨h1, _, _⟩ := dropEvent_single_fields read ui q
        rw [dropStep_new_ok read ui 0 q d hq hc2 hr] at h1
        have hp2 : q = "" ∨ dictContains (dropEvent read ui [q]).file_data q = true := by
          right
          rw [h1]
          simp [dictContains]
        obtain ⟨g1, g2, _⟩ := dropEvent_single_noop read (dropEvent read ui [q]) q hp2
        exact ⟨g1, g2⟩
    | error e =>
        obtain ⟨h1, _, _⟩ := dropEvent_single_fields read ui q
        rw [dropStep_new_err read ui 0 q e hq hc2 hr] at h1
        have hc3 : dictContains (dropEvent read ui [q]).file_data q = false := by
          rw [h1]
          exact hc2
        obtain ⟨k1, k2, _⟩ := dropEvent_single_fields read (dropEvent read ui [q]) q
        rw [dropStep_new_err read (dropEvent read ui [q]) 0 q e hq hc3 hr] at k1 k2
        exact ⟨k1, k2⟩

lemma open_files_twice (read : String → Except String ZernikeDistortion)
    (ui : UIState) (q : String) :
    (open_files read (open_files read ui true [q]) true [q]).file_data =
      (open_files read ui true [q]).file_data ∧
    listTexts (open_files read (open_files read ui true [q]) true [q]) =
      listTexts (open_files read ui true [q]) := by
  by_cases hc : dictContains ui.file_data q = true
  · obtain ⟨h1, _, _⟩ := open_files_single_skip read ui q hc
    have hc2 : dictContains (open_files read ui true [q]).file_data q = true := by
      rw [h1]
      exact hc
    obtain ⟨g1, g2, _⟩ := open_files_single_skip read (open_files read ui true [q]) q hc2
    exact ⟨g1, g2⟩
  · have hc2 : dictContains ui.file_data q = false := dictContains_of_eq_false _ hc
    cases hr : read q with
    | ok d =>
        obtain ⟨h1, _, _⟩ := open_files_single_fields read ui q
        rw [openStep_new_ok read ui q d hc2 hr] at h1
        have hc3 : dictContains (open_files read ui true [q]).file_data q = true := by
          rw [h1]
          simp [dictContains]
        obtain ⟨g1, g2, _⟩ := open_files_single_skip read (open_files read ui true [q]) q hc3
        exact ⟨g1, g2⟩
    | error e =>
        obtain ⟨h1, _, _⟩ := open_files_single_fields read ui q
        rw [openStep_new_err read ui q e hc2 hr] at h1
        have hc3 : dictContains (open_files read ui true [q]).file_data q = false := by
          rw [h1]
          exact hc2
        obtain ⟨k1, k2, _⟩ := open_files_single_fields read (open_files read ui true [q]) q
        rw [openStep_new_err read (open_files read ui true [q]) q e hc3 hr] at k1 k2
        exact ⟨k1, k2⟩

/-- C5: loading is idempotent per path. For a path already present as a key
of `file_data`, processing it again via `dropEvent` or via `open_files`
leaves `file_data`, the list of item texts, and the set of `read_transform`
calls unchanged (the path is skipped and no duplicate item is created); and
dropping or opening the same single path twice leaves `file_data` and the
item texts the same as doing it once. -/
theorem C5_idempotent_load (read : String → Except String ZernikeDistortion)
    (ui : UIState) (p : String) (hp : dictContains ui.file_data p = true) :
    ((dropEvent read ui [p]).file_data = ui.file_data ∧
     listTexts (dropEvent read ui [p]) = listTexts ui ∧
     (dropEvent read ui [p]).readCalls = ui.readCalls) ∧
    ((open_files read ui true [p]).file_data = ui.file_data ∧
     listTexts (open_files read ui true [p]) = listTexts ui ∧
     (open_files read ui true [p]).readCalls = ui.readCalls) ∧
    (∀ q : String,
      (dropEvent read (dropEvent read ui [q]) [q]).file_data =
        (dropEvent read ui [q]).file_data ∧
      listTexts (dropEvent read (dropEvent read ui [q]) [q]) =
        listTexts (dropEvent read ui [q]) ∧
      (open_files read (open_files read ui true [q]) true [q]).file_data =
        (open_files read ui true [q]).file_data ∧
      listTexts (open_files read (open_files read ui true [q]) true [q]) =
        listTexts (open_files read ui true [q])) := by
  refine ⟨dropEvent_single_noop read ui p (Or.inr hp),
    open_files_single_skip read ui p hp, ?_⟩
  intro q
  obtain ⟨d1, d2⟩ := dropEvent_twice read ui q
  obtain ⟨o1, o2⟩ := open_files_twice read ui q
  exact ⟨d1, d2, o1, o2⟩

/-- Witness for C5 at a concrete one-file state: re-dropping the loaded path
leaves `file_data` unchanged. -/
theorem C5_idempotent_load_witness :
    (dropEvent (fun _ => Except.ok ⟨0, [], []⟩)
        { UIState.init with
            file_data := [("a", ⟨0, [], []⟩)]
            file_list := [{ text := "a", selected := false }] } ["a"]).file_data =
      [("a", (⟨0, [], []⟩ : ZernikeDistortion))] :=
  (C5_idempotent_load (fun _ => Except.ok ⟨0, [], []⟩)
    { UIState.init with
        file_data := [("a", ⟨0, [], []⟩)]
        file_list := [{ text := "a", selected := false }] } "a" (by decide)).1.1

/-! ### Equality up to warnings and read instrumentation (claim C6) -/

/-- Two UI states that agree on everything except the warning dialogs shown
and the recorded `read_transform` calls. -/
def coreEq (a b : UIState) : Prop :=
  a.file_data = b.file_data ∧ a.file_list = b.file_list ∧
  a.figure_text = b.figure_text ∧ a.abs_checked = b.abs_checked ∧
  a.canvas = b.canvas ∧ a.current = b.current ∧ a.status = b.status

lemma coreEq_refl (a : UIState) : coreEq a a :=
  ⟨rfl, rfl, rfl, rfl, rfl, rfl, rfl⟩

/-- Pair version for the drop loop accumulator (state, loaded count). -/
def pairCoreEq (s t : UIState × ℕ) : Prop :=
  coreEq s.1 t.1 ∧ s.2 = t.2

lemma pairCoreEq_refl (s : UIState × ℕ) : pairCoreEq s s :=
  ⟨coreEq_refl s.1, rfl⟩

lemma dropStep_congr (read : String → Except String ZernikeDistortion)
    (s t : UIState × ℕ) (u : String) (h : pairCoreEq s t) :
    pairCoreEq (dropStep read s u) (dropStep read t u) := by
  obtain ⟨⟨h1, h2, h3, h4, h5, h6, h7⟩, h8⟩ := h
  unfold dropStep
  by_cases hcond : u = "" ∨ dictContains s.1.file_data u = true
  · rw [if_pos hcond, if_pos (by rwa [← h1])]
    exact ⟨⟨h1, h2, h3, h4, h5, h6, h7⟩, h8⟩
  · rw [if_neg hcond, if_neg (by rwa [← h1])]
    cases hr : read u with
    | ok d =>
        exact ⟨⟨by rw [h1], by rw [h2], h3, h4, h5, h6, h7⟩, by rw [h8]⟩
    | error e =>
        exact ⟨⟨h1, h2, h3, h4, h5, h6, h7⟩, h8⟩

lemma dropFold_congr (read : String → Except String ZernikeDistortion)
    (urls : List String) :
    ∀ s t : UIState × ℕ, pairCoreEq s t →
      pairCoreEq (urls.foldl (dropStep read) s) (urls.foldl (dropStep read) t) := by
  induction urls with
  | nil => intro s t h; exact h
  | cons u rest ih =>
      intro s t h
      simp only [List.foldl_cons]
      exact ih _ _ (dropStep_congr read s t u h)

lemma dropStep_err_noop (read : String → Except String ZernikeDistortion)
    (s : UIState × ℕ) (p : String) (e : String) (hr : read p = Except.error e) :
    pairCoreEq (dropStep read s p) s := by
  unfold dropStep
  split
  · exact pairCoreEq_refl s
  · cases hcase : read p with
    | ok d =>
        rw [hcase] at hr
        exact Except.noConfusion hr
    | error e2 =>
        exact ⟨⟨rfl, rfl, rfl, rfl, rfl, rfl, rfl⟩, rfl⟩

lemma dropStep_not_contains (read : String → Except String ZernikeDistortion)
    (s : UIState × ℕ) (u p : String) (e : String) (hr : read p = Except.error e)
    (hc : dictContains s.1.file_data p = false) :
    dictContains (dropStep read s u).1.file_data p = false := by
  unfold dropStep
  split
  · exact hc
  · cases hru : read u with
    | ok d =>
        have hne : (u == p) = false := by
          rcases hbe : u == p with _ | _
          · rfl
          · rw [eq_of_beq hbe, hr] at hru
            exact Except.noConfusion hru
        simp [dictContains, List.any_append, hne]
        simpa [dictContains] using hc
    | error e2 => exact hc

lemma dropStep_not_text (read : String → Except String ZernikeDistortion)
    (s : UIState × ℕ) (u p : String) (e : String) (hr : read p = Except.error e)
    (ht : s.1.file_list.any (fun it => it.text == p) = false) :
    (dropStep read s u).1.file_list.any (fun it => it.text == p) = false := by
  unfold dropStep
  split
  · exact ht
  · cases hru : read u with
    | ok d =>
        have hne : (u == p) = false := by
          rcases hbe : u == p with _ | _
          · rfl
          · rw [eq_of_beq hbe, hr] at hru
            exact Except.noConfusion hru
        simp [List.any_append, hne]
        simpa using ht
    | error e2 => exact ht

lemma dropFold_not_contains (read : String → Except String ZernikeDistortion)
    (urls : List String) (p : String) (e : String) (hr : read p = Except.error e) :
    ∀ s : UIState × ℕ, dictContains s.1.file_data p = false →
      dictContains ((urls.foldl (dropStep read) s).1).file_data p = false := by
  induction urls with
  | nil => intro s hc; exact hc
  | cons u rest ih =>
      intro s hc
      simp only [List.foldl_cons]
      exact ih _ (dropStep_not_contains read s u p e hr hc)

lemma dropFold_not_text (read : String → Except String ZernikeDistortion)
    (urls : List String) (p : String) (e : String) (hr : read p = Except.error e) :
    ∀ s : UIState × ℕ, s.1.file_list.any (fun it => it.text == p) = false →
      ((urls.foldl (dropStep read) s).1).file_list.any (fun it => it.text == p) = false := by
  induction urls with
  | nil => intro s ht; exact ht
  | cons u rest ih =>
      intro s ht
      simp only [List.foldl_cons]
      exact ih _ (dropStep_not_text read s u p e hr ht)

lemma dropStep_warnings_mem (read : String → Except String ZernikeDistortion)
    (s : UIState × ℕ) (u : String) (w : String) (hw : w ∈ s.1.warnings) :
    w ∈ (dropStep read s u).1.warnings := by
  unfold dropStep
  split
  · exact hw
  · cases hru : read u with
    | ok d => exact hw
    | error e2 => exact List.mem_append_left _ hw

lemma dropFold_warnings_mem (read : String → Except String ZernikeDistortion)
    (urls : List String) (w : String) :
    ∀ s : UIState × ℕ, w ∈ s.1.warnings → w ∈ ((urls.foldl (dropStep read) s).1).warnings := by
  induction urls with
  | nil => intro s hw; exact hw
  | cons u rest ih =>
      intro s hw
      simp only [List.foldl_cons]
      exact ih _ (dropStep_warnings_mem read s u w hw)

lemma dropStep_err_warning (read : String → Except String ZernikeDistortion)
    (s : UIState × ℕ) (p : String) (e : String) (hq : p ≠ "")
    (hc : dictContains s.1.file_data p = false) (hr : read p = Except.error e) :
    readWarning p e ∈ (dropStep read s p).1.warnings := by
  unfold dropStep
  rw [if_neg (by rintro (h | h); exact hq h; rw [hc] at h; exact Bool.noConfusion h), hr]
  exact List.mem_append_right _ (List.mem_singleton.2 rfl)

lemma any_beq_of_map (l : List ListItem) (p : String) :
    l.any (fun it => it.text == p) = (l.map (fun it => it.text)).any (fun t => t == p) := by
  induction l with
  | nil => rfl
  | cons it rest ih => simp [List.any_cons, ih]

lemma dropEvent_eq (read : String → Except String ZernikeDistortion)
    (ui : UIState) (urls : List String) (hne : urls.isEmpty = false) :
    dropEvent read ui urls =
      { urls.foldl dropSelectStep (urls.foldl (dropStep read) (ui, 0)).1 with
        status := toString (urls.foldl (dropStep read) (ui, 0)).2 ++ " file(s) loaded" } := by
  unfold dropEvent
  rw [if_neg (by rw [hne]; exact Bool.false_ne_true)]

lemma dropEvent_nil (read : String → Except String ZernikeDistortion) (ui : UIState) :
    dropEvent read ui [] = ui := rfl

lemma dropEvent_insert_err (read : String → Except String ZernikeDistortion)
    (ui : UIState) (pre post : List String) (p e : String)
    (hq : p ≠ "") (hr : read p = Except.error e)
    (hc : dictContains ui.file_data p = false)
    (ht : ui.file_list.any (fun it => it.text == p) = false) :
    (dropEvent read ui (pre ++ p :: post)).file_data =
      (dropEvent read ui (pre ++ post)).file_data ∧
    listTexts (dropEvent read ui (pre ++ p :: post)) =
      listTexts (dropEvent read ui (pre ++ post)) ∧
    readWarning p e ∈ (dropEvent read ui (pre ++ p :: post)).warnings ∧
    dictContains (dropEvent read ui (pre ++ p :: post)).file_data p = false ∧
    (dropEvent read ui (pre ++ p :: post)).file_list.any (fun it => it.text == p) = false := by
  have hne1 : (pre ++ p :: post).isEmpty = false := by
    rcases pre with _ | ⟨a, pre⟩ <;> rfl
  have hd1 := dropEvent_eq read ui (pre ++ p :: post) hne1
  have hcoreq : pairCoreEq ((pre ++ p :: post).foldl (dropStep read) (ui, 0))
      ((pre ++ post).foldl (dropStep read) (ui, 0)) := by
    rw [List.foldl_append, List.foldl_append, List.foldl_cons]
    exact dropFold_congr read post _ _
      (dropStep_err_noop read (pre.foldl (dropStep read) (ui, 0)) p e hr)
  obtain ⟨f1, f2, f3, f4⟩ := dropSelectFold (pre ++ p :: post)
      ((pre ++ p :: post).foldl (dropStep read) (ui, 0)).1
  have hcs1 : dictContains
      ((pre ++ p :: post).foldl (dropStep read) (ui, 0)).1.file_data p = false :=
    dropFold_not_contains read (pre ++ p :: post) p e hr (ui, 0) hc
  have hts1 : ((pre ++ p :: post).foldl (dropStep read) (ui, 0)).1.file_list.any
      (fun it => it.text == p) = false :=
    dropFold_not_text read (pre ++ p :: post) p e hr (ui, 0) ht
  have hwmem : readWarning p e ∈
      ((pre ++ p :: post).foldl (dropStep read) (ui, 0)).1.warnings := by
    rw [List.foldl_append, List.foldl_cons]
    exact dropFold_warnings_mem read post _ _
      (dropStep_err_warning read (pre.foldl (dropStep read) (ui, 0)) p e hq
        (dropFold_not_contains read pre p e hr (ui, 0) hc) hr)
  refine ⟨?_, ?_, ?_, ?_, ?_⟩
  · rcases hemp : (pre ++ post).isEmpty with _ | _
    · have hd2 := dropEvent_eq read ui (pre ++ post) hemp
      obtain ⟨g1, _, _, _⟩ := dropSelectFold (pre ++ post)
        ((pre ++ post).foldl (dropStep read) (ui, 0)).1
      rw [hd1, hd2]
      exact (f1.trans hcoreq.1.1).trans g1.symm
    · have hlist : pre ++ post = [] := List.isEmpty_iff.1 hemp
      rw [hd1, hlist, dropEvent_nil]
      have hs2eq : (pre ++ post).foldl (dropStep read) (ui, 0) = (ui, 0) := by
        rw [hlist]
        rfl
      have h3 := hcoreq.1.1
      rw [hs2eq] at h3
      exact f1.trans h3
  · rcases hemp : (pre ++ post).isEmpty with _ | _
    · have hd2 := dropEvent_eq read ui (pre ++ post) hemp
      obtain ⟨_, g2, _, _⟩ := dropSelectFold (pre ++ post)
        ((pre ++ post).foldl (dropStep read) (ui, 0)).1
      rw [hd1, hd2]
      refine (f2.trans ?_).trans g2.symm
      unfold listTexts
      rw [hcoreq.1.2.1]
    · have hlist : pre ++ post = [] := List.isEmpty_iff.1 hemp
      rw [hd1, hlist, dropEvent_nil]
      have hs2eq : (pre ++ post).foldl (dropStep read) (ui, 0) = (ui, 0) := by
        rw [hlist]
        rfl
      have h3 := hcoreq.1.2.1
      rw [hs2eq] at h3
      refine f2.trans ?_
      unfold listTexts
      rw [h3]
  · rw [hd1]
    exact f4.symm ▸ hwmem
  · rw [hd1]
    exact f1.symm ▸ hcs1
  · rw [hd1]
    have hany : ((pre ++ p :: post).foldl dropSelectStep
        ((pre ++ p :: post).foldl (dropStep read) (ui, 0)).1).file_list.any
        (fun it => it.text == p) =
        ((pre ++ p :: post).foldl (dropStep read) (ui, 0)).1.file_list.any
        (fun it => it.text == p) := by
      have h5 := f2
      unfold listTexts at h5
      rw [any_beq_of_map, h5, ← any_beq_of_map]
    exact hany.trans hts1

lemma openStep_congr (read : String → Except String ZernikeDistortion)
    (a b : UIState) (u : String) (h : coreEq a b) :
    coreEq (openStep read a u) (openStep read b u) := by
  obtain ⟨h1, h2, h3, h4, h5, h6, h7⟩ := h
  unfold openStep
  by_cases hcond : dictContains a.file_data u = true
  · have hcondb : dictContains b.file_data u = true := by rwa [h1] at hcond
    rw [if_pos hcond, if_pos hcondb]
    by_cases hany : a.file_list.any (fun it => it.text == u) = true
    · have hanyb : b.file_list.any (fun it => it.text == u) = true := by rwa [h2] at hany
      rw [if_pos hany, if_pos hanyb]
      unfold setCurrentItem
      exact ⟨h1, by rw [h2], h3, h4, h5, rfl, h7⟩
    · have hanyb : ¬ b.file_list.any (fun it => it.text == u) = true := by rwa [h2] at hany
      rw [if_neg hany, if_neg hanyb]
      exact ⟨h1, h2, h3, h4, h5, h6, h7⟩
  · have hcondb : ¬ dictContains b.file_data u = true := by rwa [h1] at hcond
    rw [if_neg hcond, if_neg hcondb]
    cases hr : read u with
    | ok d => exact ⟨by rw [h1], by rw [h2], h3, h4, h5, h6, h7⟩
    | error e => exact ⟨h1, h2, h3, h4, h5, h6, h7⟩

lemma openFold_congr (read : String → Except String ZernikeDistortion)
    (paths : List String) :
    ∀ a b : UIState, coreEq a b →
      coreEq (paths.foldl (openStep read) a) (paths.foldl (openStep read) b) := by
  induction paths with
  | nil => intro a b h; exact h
  | cons u rest ih =>
      intro a b h
      simp only [List.foldl_cons]
      exact ih _ _ (openStep_congr read a b u h)

lemma openStep_err_noop (read : String → Except String ZernikeDistortion)
    (ui : UIState) (p e : String) (hc : dictContains ui.file_data p = false)
    (hr : read p = Except.error e) :
    coreEq (openStep read ui p) ui := by
  rw [openStep_new_err read ui p e hc hr]
  exact ⟨rfl, rfl, rfl, rfl, rfl, rfl, rfl⟩

lemma openStep_not_contains (read : String → Except String ZernikeDistortion)
    (ui : UIState) (u p e : String) (hr : read p = Except.error e)
    (hc : dictContains ui.file_data p = false) :
    dictContains (openStep read ui u).file_data p = false := by
  unfold openStep
  split
  · split
    · exact hc
    · exact hc
  · cases hru : read u with
    | ok d =>
        have hne : (u == p) = false := by
          rcases hbe : u == p with _ | _
          · rfl
          · rw [eq_of_beq hbe, hr] at hru
            exact Except.noConfusion hru
        simp [dictContains, List.any_append, hne]
        simpa [dictContains] using hc
    | error e2 => exact hc

lemma openStep_not_text (read : String → Except String ZernikeDistortion)
    (ui : UIState) (u p e : String) (hr : read p = Except.error e)
    (ht : ui.file_list.any (fun it => it.text == p) = false) :
    (openStep read ui u).file_list.any (fun it => it.text == p) = false := by
  unfold openStep
  split
  · split
    · show (clearAndSelectFirst u ui.file_list).any (fun it => it.text == p) = false
      rw [any_beq_of_map, clearAndSelectFirst_texts, ← any_beq_of_map]
      exact ht
    · exact ht
  · cases hru : read u with
    | ok d =>
        have hne : (u == p) = false := by
          rcases hbe : u == p with _ | _
          · rfl
          · rw [eq_of_beq hbe, hr] at hru
            exact Except.noConfusion hru
        simp [List.any_append, hne]
        simpa using ht
    | error e2 => exact ht

lemma openFold_not_contains (read : String → Except String ZernikeDistortion)
    (paths : List String) (p e : String) (hr : read p = Except.error e) :
    ∀ ui : UIState, dictContains ui.file_data p = false →
      dictContains ((paths.foldl (openStep read) ui)).file_data p = false := by
  induction paths with
  | nil => intro ui hc; exact hc
  | cons u rest ih =>
      intro ui hc
      simp only [List.foldl_cons]
      exact ih _ (openStep_not_contains read ui u p e hr hc)

lemma openFold_not_text (read : String → Except String ZernikeDistortion)
    (paths : List String) (p e : String) (hr : read p = Except.error e) :
    ∀ ui : UIState, ui.file_list.any (fun it => it.text == p) = false →
      ((paths.foldl (openStep read) ui)).file_list.any (fun it => it.text == p) = false := by
  induction paths with
  | nil => intro ui ht; exact ht
  | cons u rest ih =>
      intro ui ht
      simp only [List.foldl_cons]
      exact ih _ (openStep_not_text read ui u p e hr ht)

lemma openStep_warnings_mem (read : String → Except String ZernikeDistortion)
    (ui : UIState) (u : String) (w : String) (hw : w ∈ ui.warnings) :
    w ∈ (openStep read ui u).warnings := by
  unfold openStep
  split
  · split
    · exact hw
    · exact hw
  · cases hru : read u with
    | ok d => exact hw
    | error e2 => exact List.mem_append_left _ hw

lemma openFold_warnings_mem (read : String → Except String ZernikeDistortion)
    (paths : List String) (w : String) :
    ∀ ui : UIState, w ∈ ui.warnings → w ∈ ((paths.foldl (openStep read) ui)).warnings := by
  induction paths with
  | nil => intro ui hw; exact hw
  | cons u rest ih =>
      intro ui hw
      simp only [List.foldl_cons]
      exact ih _ (openStep_warnings_mem read ui u w hw)

lemma openStep_err_warning (read : String → Except String ZernikeDistortion)
    (ui : UIState) (p e : String) (hc : dictContains ui.file_data p = false)
    (hr : read p = Except.error e) :
    readWarning p e ∈ (openStep read ui p).warnings := by
  rw [openStep_new_err read ui p e hc hr]
  exact List.mem_append_right _ (List.mem_singleton.2 rfl)

lemma open_files_true_eq (read : String → Except String ZernikeDistortion)
    (ui : UIState) (paths : List String) :
    open_files read ui true paths =
      update_plot (paths.foldl openSelectStep (paths.foldl (openStep read) ui)) := by
  unfold open_files
  rw [if_pos rfl]

lemma update_plot_canvas_congr (a b : UIState) (h : coreEq a b) :
    update_plot_canvas a = update_plot_canvas b := by
  obtain ⟨h1, h2, h3, h4, h5, h6, h7⟩ := h
  unfold update_plot_canvas plotData selectedItems
  rw [h1, h2, h3, h4, h5]

lemma update_plot_congr (a b : UIState) (h : coreEq a b) :
    coreEq (update_plot a) (update_plot b) := by
  obtain ⟨h1, h2, h3, h4, h5, h6, h7⟩ := h
  exact ⟨h1, h2, h3, h4, update_plot_canvas_congr a b ⟨h1, h2, h3, h4, h5, h6, h7⟩, h6, h7⟩

lemma open_files_insert_err (read : String → Except String ZernikeDistortion)
    (ui : UIState) (pre post : List String) (p e : String)
    (hr : read p = Except.error e)
    (hc : dictContains ui.file_data p = false)
    (ht : ui.file_list.any (fun it => it.text == p) = false) :
    (open_files read ui true (pre ++ p :: post)).file_data =
      (open_files read ui true (pre ++ post)).file_data ∧
    listTexts (open_files read ui true (pre ++ p :: post)) =
      listTexts (open_files read ui true (pre ++ post)) ∧
    readWarning p e ∈ (open_files read ui true (pre ++ p :: post)).warnings ∧
    dictContains (open_files read ui true (pre ++ p :: post)).file_data p = false ∧
    (open_files read ui true (pre ++ p :: post)).file_list.any
      (fun it => it.text == p) = false := by
  have hcoreq : coreEq ((pre ++ p :: post).foldl (openStep read) ui)
      ((pre ++ post).foldl (openStep read) ui) := by
    rw [List.foldl_append, List.foldl_append, List.foldl_cons]
    exact openFold_congr read post _ _
      (openStep_err_noop read (pre.foldl (openStep read) ui) p e
        (openFold_not_contains read pre p e hr ui hc) hr)
  have h1 := open_files_true_eq read ui (pre ++ p :: post)
  have h2 := open_files_true_eq read ui (pre ++ post)
  obtain ⟨f1, f2, f3, f4⟩ := openSelectFold (pre ++ p :: post)
    ((pre ++ p :: post).foldl (openStep read) ui)
  obtain ⟨g1, g2, g3, g4⟩ := openSelectFold (pre ++ post)
    ((pre ++ post).foldl (openStep read) ui)
  have hcs1 : dictContains ((pre ++ p :: post).foldl (openStep read) ui).file_data p = false :=
    openFold_not_contains read (pre ++ p :: post) p e hr ui hc
  have hts1 : ((pre ++ p :: post).foldl (openStep read) ui).file_list.any
      (fun it => it.text == p) = false :=
    openFold_not_text read (pre ++ p :: post) p e hr ui ht
  have hwmem : readWarning p e ∈ ((pre ++ p :: post).foldl (openStep read) ui).warnings := by
    rw [List.foldl_append, List.foldl_cons]
    exact openFold_warnings_mem read post _ _
      (openStep_err_warning read (pre.foldl (openStep read) ui) p e
        (openFold_not_contains read pre p e hr ui hc) hr)
  refine ⟨?_, ?_, ?_, ?_, ?_⟩
  · rw [h1, h2]
    exact ((update_plot_fd _).trans (f1.trans hcoreq.1)).trans
      ((update_plot_fd _).trans g1).symm
  · rw [h1, h2]
    have e1 : listTexts (update_plot ((pre ++ p :: post).foldl openSelectStep
        ((pre ++ p :: post).foldl (openStep read) ui))) =
        listTexts ((pre ++ p :: post).foldl (openStep read) ui) :=
      (update_plot_texts _).trans f2
    have e2 : listTexts (update_plot ((pre ++ post).foldl openSelectStep
        ((pre ++ post).foldl (openStep read) ui))) =
        listTexts ((pre ++ post).foldl (openStep read) ui) :=
      (update_plot_texts _).trans g2
    rw [e1, e2]
    unfold listTexts
    rw [hcoreq.2.1]
  · rw [h1]
    rw [update_plot_warnings, f4]
    exact hwmem
  · rw [h1]
    rw [update_plot_fd, f1]
    exact hcs1
  · rw [h1]
    have hpres : (update_plot ((pre ++ p :: post).foldl openSelectStep
        ((pre ++ p :: post).foldl (openStep read) ui))).file_list.any
        (fun it => it.text == p) =
        ((pre ++ p :: post).foldl (openStep read) ui).file_list.any
        (fun it => it.text == p) := by
      have htx : listTexts (update_plot ((pre ++ p :: post).foldl openSelectStep
          ((pre ++ p :: post).foldl (openStep read) ui))) =
          listTexts ((pre ++ p :: post).foldl (openStep read) ui) :=
        (update_plot_texts _).trans f2
      unfold listTexts at htx
      rw [any_beq_of_map, htx, ← any_beq_of_map]
    exact hpres.trans hts1

/-- C6: per-file atomicity of loading. If `read_transform` raises for a path
`p` of a dropped or dialog-selected batch, then (for both `dropEvent` and
`open_files`): the warning dialog for `p` is shown, `p` is added to neither
`file_data` nor the file list, and the rest of the batch is still processed
— the resulting `file_data` and item texts equal those of running the batch
without `p`. Hypotheses: the path is non-empty (an empty local-file path is
skipped before reading) and `p` is not already loaded. -/
theorem C6_per_file_atomic (read : String → Except String ZernikeDistortion)
    (ui : UIState) (pre post : List String) (p e : String)
    (hq : p ≠ "") (hr : read p = Except.error e)
    (hc : dictContains ui.file_data p = false)
    (ht : ui.file_list.any (fun it => it.text == p) = false) :
    ((dropEvent read ui (pre ++ p :: post)).file_data =
        (dropEvent read ui (pre ++ post)).file_data ∧
      listTexts (dropEvent read ui (pre ++ p :: post)) =
        listTexts (dropEvent read ui (pre ++ post)) ∧
      readWarning p e ∈ (dropEvent read ui (pre ++ p :: post)).warnings ∧
      dictContains (dropEvent read ui (pre ++ p :: post)).file_data p = false ∧
      (dropEvent read ui (pre ++ p :: post)).file_list.any
        (fun it => it.text == p) = false) ∧
    ((open_files read ui true (pre ++ p :: post)).file_data =
        (open_files read ui true (pre ++ post)).file_data ∧
      listTexts (open_files read ui true (pre ++ p :: post)) =
        listTexts (open_files read ui true (pre ++ post)) ∧
      readWarning p e ∈ (open_files read ui true (pre ++ p :: post)).warnings ∧
      dictContains (open_files read ui true (pre ++ p :: post)).file_data p = false ∧
      (open_files read ui true (pre ++ p :: post)).file_list.any
        (fun it => it.text == p) = false) :=
  ⟨dropEvent_insert_err read ui pre post p e hq hr hc ht,
   open_files_insert_err read ui pre post p e hr hc ht⟩

/-- Witness for C6: dropping a single unreadable file shows its warning. -/
theorem C6_per_file_atomic_witness :
    readWarning "a" "bad" ∈
      (dropEvent (fun _ => Except.error "bad") UIState.init ["a"]).warnings :=
  (C6_per_file_atomic (fun _ => Except.error "bad") UIState.init [] [] "a" "bad"
    (by decide) rfl (by decide) (by decide)).1.2.2.1

/-! ### The keys-equal-texts invariant (claim C8) -/

/-- Invariant of every reachable state: the dict keys (in insertion order)
are exactly the list-widget texts (in widget order), without duplicates. -/
def UIInv (ui : UIState) : Prop :=
  fdKeys ui = listTexts ui ∧ (fdKeys ui).Nodup

lemma dictContains_false_iff (fd : List (String × ZernikeDistortion)) (p : String) :
    dictContains fd p = false ↔ p ∉ fd.map (fun e => e.1) := by
  unfold dictContains
  rw [List.any_eq_false]
  constructor
  · intro h hx
    obtain ⟨e, he, hep⟩ := List.mem_map.1 hx
    exact h e he (beq_iff_eq.2 hep)
  · intro h e he hbe
    exact h (List.mem_map.2 ⟨e, he, beq_iff_eq.1 hbe⟩)

lemma dropStep_inv (read : String → Except String ZernikeDistortion)
    (s : UIState × ℕ) (u : String) (h : UIInv s.1) : UIInv (dropStep read s u).1 := by
  unfold dropStep
  split
  · exact h
  · rename_i hcond
    cases hru : read u with
    | ok d =>
        obtain ⟨h1, h2⟩ := h
        unfold fdKeys listTexts at h1
        unfold fdKeys at h2
        have hnc : dictContains s.1.file_data u = false := by
          rcases hkk : dictContains s.1.file_data u with _ | _
          · rfl
          · exact absurd (Or.inr hkk) hcond
        have hnotin : u ∉ s.1.file_data.map (fun e => e.1) :=
          (dictContains_false_iff _ _).1 hnc
        constructor
        · show (s.1.file_data ++ [(u, d)]).map (fun e => e.1) =
            (s.1.file_list ++ [({ text := u, selected := false } : ListItem)]).map
              (fun it => it.text)
          rw [List.map_append, List.map_append, h1]
          rfl
        · show ((s.1.file_data ++ [(u, d)]).map (fun e => e.1)).Nodup
          rw [List.map_append]
          rw [List.nodup_append]
          refine ⟨h2, by simp, ?_⟩
          intro a ha hb
          simp only [List.map_cons, List.map_nil, List.mem_singleton] at hb
          rw [hb] at ha
          exact hnotin ha
    | error e => exact h

lemma dropFold_inv (read : String → Except String ZernikeDistortion)
    (urls : List String) :
    ∀ s : UIState × ℕ, UIInv s.1 → UIInv ((urls.foldl (dropStep read) s).1) := by
  induction urls with
  | nil => intro s h; exact h
  | cons u rest ih =>
      intro s h
      simp only [List.foldl_cons]
      exact ih _ (dropStep_inv read s u h)

lemma dropEvent_inv (read : String → Except String ZernikeDistortion)
    (ui : UIState) (urls : List String) (h : UIInv ui) : UIInv (dropEvent read ui urls) := by
  rcases hemp : urls.isEmpty with _ | _
  · rw [dropEvent_eq read ui urls hemp]
    have hloop := dropFold_inv read urls (ui, 0) h
    obtain ⟨f1, f2, _, _⟩ := dropSelectFold urls (urls.foldl (dropStep read) (ui, 0)).1
    constructor
    · show fdKeys (urls.foldl dropSelectStep (urls.foldl (dropStep read) (ui, 0)).1) =
        listTexts (urls.foldl dropSelectStep (urls.foldl (dropStep read) (ui, 0)).1)
      unfold fdKeys
      rw [f1, f2]
      exact hloop.1
    · show (fdKeys (urls.foldl dropSelectStep (urls.foldl (dropStep read) (ui, 0)).1)).Nodup
      unfold fdKeys
      rw [f1]
      exact hloop.2
  · rw [List.isEmpty_iff.1 hemp, dropEvent_nil]
    exact h

lemma openStep_inv (read : String → Except String ZernikeDistortion)
    (ui : UIState) (u : String) (h : UIInv ui) : UIInv (openStep read ui u) := by
  unfold openStep
  split
  · split
    · obtain ⟨h1, h2⟩ := h
      constructor
      · show fdKeys (setCurrentItem ui u) = listTexts (setCurrentItem ui u)
        rw [setCurrentItem_texts]
        exact h1
      · exact h2
    · exact h
  · rename_i hcond
    cases hru : read u with
    | ok d =>
        obtain ⟨h1, h2⟩ := h
        unfold fdKeys listTexts at h1
        unfold fdKeys at h2
        have hnotin : u ∉ ui.file_data.map (fun e => e.1) :=
          (dictContains_false_iff _ _).1 (dictContains_of_eq_false _ hcond)
        constructor
        · show (ui.file_data ++ [(u, d)]).map (fun e => e.1) =
            (ui.file_list ++ [({ text := u, selected := false } : ListItem)]).map
              (fun it => it.text)
          rw [List.map_append, List.map_append, h1]
          rfl
        · show ((ui.file_data ++ [(u, d)]).map (fun e => e.1)).Nodup
          rw [List.map_append, List.nodup_append]
          refine ⟨h2, by simp, ?_⟩
          intro a ha hb
          simp only [List.map_cons, List.map_nil, List.mem_singleton] at hb
          rw [hb] at ha
          exact hnotin ha
    | error e => exact h

lemma openFold_inv (read : String → Except String ZernikeDistortion)
    (paths : List String) :
    ∀ ui : UIState, UIInv ui → UIInv (paths.foldl (openStep read) ui) := by
  induction paths with
  | nil => intro ui h; exact h
  | cons u rest ih =>
      intro ui h
      simp only [List.foldl_cons]
      exact ih _ (openStep_inv read ui u h)

lemma update_plot_inv (ui : UIState) (h : UIInv ui) : UIInv (update_plot ui) := h

lemma open_files_inv (read : String → Except String ZernikeDistortion)
    (ui : UIState) (accepted : Bool) (paths : List String) (h : UIInv ui) :
    UIInv (open_files read ui accepted paths) := by
  cases accepted with
  | false => exact h
  | true =>
      rw [open_files_true_eq]
      apply update_plot_inv
      have hloop := openFold_inv read paths ui h
      obtain ⟨f1, f2, _, _⟩ := openSelectFold paths (paths.foldl (openStep read) ui)
      constructor
      · show fdKeys (paths.foldl openSelectStep (paths.foldl (openStep read) ui)) =
          listTexts (paths.foldl openSelectStep (paths.foldl (openStep read) ui))
        unfold fdKeys
        rw [f1, f2]
        exact hloop.1
      · show (fdKeys (paths.foldl openSelectStep (paths.foldl (openStep read) ui))).Nodup
        unfold fdKeys
        rw [f1]
        exact hloop.2

lemma dictErase_eq_filter (fd : List (String × ZernikeDistortion)) (t : String)
    (hnd : (fd.map (fun e => e.1)).Nodup) :
    dictErase fd t = fd.filter (fun e => ! (e.1 == t)) := by
  induction fd with
  | nil => rfl
  | cons e rest ih =>
      rw [List.map_cons, List.nodup_cons] at hnd
      show (if e.1 == t then rest else e :: dictErase rest t) =
        List.filter (fun x => ! (x.1 == t)) (e :: rest)
      rw [List.filter_cons]
      rcases hbe : e.1 == t with _ | _
      · show e :: dictErase rest t = e :: List.filter (fun x => ! (x.1 == t)) rest
        rw [ih hnd.2]
      · show rest = List.filter (fun x => ! (x.1 == t)) rest
        symm
        rw [List.filter_eq_self]
        intro x hx
        have hxt : x.1 ≠ t := by
          intro hEq
          apply hnd.1
          exact List.mem_map.2 ⟨x, hx, by rw [hEq, ← beq_iff_eq.1 hbe]⟩
        simp [hxt]

lemma removeStep_eq_filter (fd : List (String × ZernikeDistortion)) (it : ListItem)
    (hnd : (fd.map (fun e => e.1)).Nodup) :
    removeStep fd it = fd.filter (fun e => ! (e.1 == it.text)) := by
  unfold removeStep
  rcases hc : dictContains fd it.text with _ | _
  · show fd = List.filter (fun e => ! (e.1 == it.text)) fd
    symm
    rw [List.filter_eq_self]
    intro e he
    have hne : e.1 ≠ it.text := by
      intro hEq
      have hcc : dictContains fd it.text = true := by
        unfold dictContains
        rw [List.any_eq_true]
        exact ⟨e, he, beq_iff_eq.2 hEq⟩
      rw [hc] at hcc
      exact Bool.noConfusion hcc
    simp [hne]
  · show dictErase fd it.text = List.filter (fun e => ! (e.1 == it.text)) fd
    exact dictErase_eq_filter fd it.text hnd

lemma keysOf_filter (fd : List (String × ZernikeDistortion)) (q : String → Bool) :
    (fd.filter (fun e => q e.1)).map (fun e => e.1) = (fd.map (fun e => e.1)).filter q := by
  induction fd with
  | nil => rfl
  | cons e rest ih =>
      rw [List.filter_cons, List.map_cons, List.filter_cons]
      rcases hq : q e.1 with _ | _
      · simp [ih]
      · simp [ih]

lemma texts_filter (l : List ListItem) (q : String → Bool) :
    (l.filter (fun it => q it.text)).map (fun it => it.text) =
      (l.map (fun it => it.text)).filter q := by
  induction l with
  | nil => rfl
  | cons it rest ih =>
      rw [List.filter_cons, List.map_cons, List.filter_cons]
      rcases hq : q it.text with _ | _
      · simp [ih]
      · simp [ih]

lemma removeFold_eq_filter (sel : List ListItem) :
    ∀ fd : List (String × ZernikeDistortion), (fd.map (fun e => e.1)).Nodup →
      sel.foldl removeStep fd =
        fd.filter (fun e => ! sel.any (fun s => e.1 == s.text)) := by
  induction sel with
  | nil =>
      intro fd _
      simp only [List.foldl_nil, List.any_nil, Bool.not_false]
      symm
      rw [List.filter_eq_self]
      intro a _
      rfl
  | cons it rest ih =>
      intro fd hnd
      simp only [List.foldl_cons]
      rw [removeStep_eq_filter fd it hnd]
      have hnd2 : ((fd.filter (fun e => ! (e.1 == it.text))).map (fun e => e.1)).Nodup :=
        hnd.sublist ((List.filter_sublist _).map _)
      rw [ih _ hnd2, List.filter_filter]
      apply List.filter_congr
      intro e _
      simp [List.any_cons, Bool.not_or, Bool.and_comm]

lemma selected_any_eq (l : List ListItem)
    (hnd : (l.map (fun it => it.text)).Nodup) :
    ∀ it ∈ l, ((l.filter (fun s => s.selected)).any (fun s => it.text == s.text)) =
      it.selected := by
  intro it hit
  rcases hsel : it.selected with _ | _
  · rw [List.any_eq_false]
    intro s hs hp
    obtain ⟨hsl, hssel⟩ := List.mem_filter.1 hs
    have hts : it.text = s.text := beq_iff_eq.1 hp
    have hne : it ≠ s := by
      intro hEq
      rw [hEq] at hsel
      rw [hsel] at hssel
      exact Bool.noConfusion hssel
    have hlnd : l.Nodup := List.Nodup.of_map _ hnd
    exact hne (((List.nodup_map_iff_inj_on hlnd).1 hnd) it hit s hsl hts)
  · rw [List.any_eq_true]
    exact ⟨it, List.mem_filter.2 ⟨hit, hsel⟩, beq_iff_eq.2 rfl⟩

lemma remove_selected_files_inv (ui : UIState) (h : UIInv ui) :
    UIInv (remove_selected_files ui) := by
  obtain ⟨h1, h2⟩ := h
  unfold fdKeys listTexts at h1
  unfold fdKeys at h2
  unfold remove_selected_files
  apply update_plot_inv
  have hfd := removeFold_eq_filter (ui.file_list.filter (fun it => it.selected))
    ui.file_data h2
  constructor
  · show ((ui.file_list.filter (fun it => it.selected)).foldl removeStep
        ui.file_data).map (fun e => e.1) =
      (ui.file_list.filter (fun it => ! it.selected)).map (fun it => it.text)
    rw [hfd]
    have hk := keysOf_filter ui.file_data
      (fun k => ! (ui.file_list.filter (fun it => it.selected)).any (fun s => k == s.text))
    rw [hk, h1]
    have ht2 := texts_filter ui.file_list
      (fun k => ! (ui.file_list.filter (fun it => it.selected)).any (fun s => k == s.text))
    rw [← ht2]
    apply congrArg
    apply List.filter_congr
    intro it hit
    rw [selected_any_eq ui.file_list (h1 ▸ h2) it hit]
  · show (((ui.file_list.filter (fun it => it.selected)).foldl removeStep
        ui.file_data).map (fun e => e.1)).Nodup
    rw [hfd]
    exact h2.sublist ((List.filter_sublist _).map _)

/-- C8: from any state satisfying the keys-equal-texts invariant (as the
initial empty state does), after `dropEvent`, after `open_files`, and after
`remove_selected_files` the set of keys of `file_data` equals the set of
texts of the file-list items, and the file list holds no duplicate texts. -/
theorem C8_keys_texts_invariant (read : String → Except String ZernikeDistortion)
    (ui : UIState) (hinv : UIInv ui) :
    (∀ urls : List String,
      (∀ s, s ∈ fdKeys (dropEvent read ui urls) ↔ s ∈ listTexts (dropEvent read ui urls)) ∧
      (listTexts (dropEvent read ui urls)).Nodup) ∧
    (∀ (accepted : Bool) (paths : List String),
      (∀ s, s ∈ fdKeys (open_files read ui accepted paths) ↔
        s ∈ listTexts (open_files read ui accepted paths)) ∧
      (listTexts (open_files read ui accepted paths)).Nodup) ∧
    ((∀ s, s ∈ fdKeys (remove_selected_files ui) ↔
        s ∈ listTexts (remove_selected_files ui)) ∧
      (listTexts (remove_selected_files ui)).Nodup) := by
  have hout : ∀ x : UIState, UIInv x →
      (∀ s, s ∈ fdKeys x ↔ s ∈ listTexts x) ∧ (listTexts x).Nodup := by
    rintro x ⟨he, hn⟩
    exact ⟨fun s => by rw [he], he ▸ hn⟩
  exact ⟨fun urls => hout _ (dropEvent_inv read ui urls hinv),
    fun accepted paths => hout _ (open_files_inv read ui accepted paths hinv),
    hout _ (remove_selected_files_inv ui hinv)⟩

/-- Witness for C8 from the initial empty state: after dropping one file,
its path is a dict key exactly as it is a list text. -/
theorem C8_keys_texts_invariant_witness :
    "a" ∈ fdKeys (dropEvent (fun _ => Except.ok ⟨0, [], []⟩) UIState.init ["a"]) ↔
      "a" ∈ listTexts (dropEvent (fun _ => Except.ok ⟨0, [], []⟩) UIState.init ["a"]) :=
  ((C8_keys_texts_invariant (fun _ => Except.ok ⟨0, [], []⟩) UIState.init
    ⟨rfl, List.nodup_nil⟩).1 ["a"]).1 "a"
